import Mathlib

/-!
# Virtual timer scheduler (sys/vtimer.c)

A shallow embedding of the virtual-timer scheduler: the time-value
normalisation, the two priority queues, the hardware arming policy, the
epoch-wrap handler and the interrupt-context dispatcher.

Conventions of the embedding

* `uint32_t` / `unsigned int` values are natural numbers below `2^32`; every
  C operation that can wrap is written with an explicit `% 2^32`.
* `int` values (the hardware arming id, status codes) are integers.
* A dereference of a NULL queue head makes the operation return `none`.
* The external collaborators (hardware timer driver, time arithmetic, the
  code behind user callbacks) are fields of an environment record; every
  call to one of them is appended to a trace kept in the scheduler state.
-/

namespace Vtimer

/-! ## Constants (vtimer.c, lines 15-19) -/

/-- Two to the power thirty-two: the modulus of `uint32_t` arithmetic. -/
def U32 : Nat := 4294967296

/-- The constant `VTIMER_THRESHOLD`, defined as `20U` (line 15). -/
def VTIMER_THRESHOLD : Nat := 20

/-- The constant `VTIMER_BACKOFF`, defined as `10U` (line 16). -/
def VTIMER_BACKOFF : Nat := 10

/-- The constant `SECONDS_PER_TICK`, defined as `(4096U)` (line 18). -/
def SECONDS_PER_TICK : Nat := 4096

/-- The constant `NANOSECONDS_PER_TICK`, defined as `(4096U * 1000000)` (line 19), an
unsigned product; it is below `2^32`, so nothing is lost. -/
def NANOSECONDS_PER_TICK : Nat := (4096 * 1000000) % 4294967296

/-! ## Time values -/

/-- The C type `timex_t`: a pair of `uint32_t` fields. -/
structure timex_t where
  seconds : Nat
  nanoseconds : Nat
deriving DecidableEq, Repr

/-- Wrapping `uint32_t` addition. -/
def add32 (a b : Nat) : Nat := (a + b) % U32

/-- Wrapping `uint32_t` subtraction (for operands below `2^32`). -/
def sub32 (a b : Nat) : Nat := (a + U32 - b) % U32

/-- Wrapping `uint32_t` multiplication. -/
def mul32 (a b : Nat) : Nat := (a * b) % U32

/-- The function `normalize_to_tick` (vtimer.c, lines 114-130), on a value
rather than through a pointer. The two `if` statements are sequential: the
second one tests the value the first one may have changed. -/
def normalize_to_tick (time : timex_t) : timex_t :=
  let seconds_tmp := time.seconds % SECONDS_PER_TICK
  let seconds1 := sub32 time.seconds seconds_tmp
  let nsecs_tmp := add32 time.nanoseconds (mul32 seconds_tmp 1000000)
  let wrapped : Bool := decide (nsecs_tmp < time.nanoseconds)
  let nsecs_tmp2 := if wrapped then sub32 nsecs_tmp NANOSECONDS_PER_TICK else nsecs_tmp
  let seconds2 := if wrapped then add32 seconds1 SECONDS_PER_TICK else seconds1
  let over : Bool := decide (nsecs_tmp2 > NANOSECONDS_PER_TICK)
  let nsecs_tmp3 := if over then sub32 nsecs_tmp2 NANOSECONDS_PER_TICK else nsecs_tmp2
  let seconds3 := if over then add32 seconds2 SECONDS_PER_TICK else seconds2
  { seconds := seconds3, nanoseconds := nsecs_tmp3 }

/-! ## Timers, queues and collaborators -/

/-- The function pointers a timer's `action` field can hold: the epoch-wrap
handler `vtimer_tick`, the thread scheduler's `thread_wakeup`, or a caller
supplied callback identified by its address. -/
inductive action_t where
  | vtimer_tick
  | thread_wakeup
  | user (f : Nat)
deriving DecidableEq, Repr

/-- The C type `vtimer_t`. The field `priority` is `queue_entry.priority`; the
field `addr` is the address of the caller-owned record, which is how the C code
tells two timers apart. -/
structure vtimer_t where
  addr : Nat
  priority : Nat
  absolute : timex_t
  action : action_t
  arg : Nat
deriving DecidableEq, Repr

/-- Calls that leave the scheduler: to the hardware timer driver (with the value
it returned), to the interrupt mask primitive, to a timer's action and to the
thread scheduler. -/
inductive Event where
  | hwtimer_now (value : Nat)
  | hwtimer_remove (id : Int)
  | hwtimer_set_absolute (absolute : Nat) (id : Int)
  | disableIRQ
  | restoreIRQ
  | fire (timer : Nat)
  | thread_wakeup (pid : Nat)
deriving DecidableEq, Repr

/-- The event is a call of the driver's `hwtimer_set_absolute`. -/
def Event.is_arm : Event → Bool
  | Event.hwtimer_set_absolute _ _ => true
  | _ => false

/-- The event is a call of the driver's `hwtimer_remove`. -/
def Event.is_cancel : Event → Bool
  | Event.hwtimer_remove _ => true
  | _ => false

/-- A call of the public arming interface made from inside a user callback:
`vtimer_set_cb (t, interval, f_ptr, ptr)` or `vtimer_set_wakeup (t, interval, pid)`. -/
inductive api_call where
  | set_cb (t : vtimer_t) (interval : timex_t) (f_ptr : action_t) (ptr : Nat)
  | set_wakeup (t : vtimer_t) (interval : timex_t) (pid : Nat)
deriving DecidableEq, Repr

/-- The collaborators of the scheduler that are not part of vtimer.c. Each
answer may depend on every call made so far.

* `hwtimer_now`: the counter value the driver reports;
* `hwtimer_set_absolute`: the arming id the driver returns for a deadline;
* `timex_add`: the time arithmetic library's addition;
* `user_action`: the arming calls a user callback `f (arg)` makes when fired. -/
structure Env where
  hwtimer_now : List Event → Nat
  hwtimer_set_absolute : List Event → Nat → Int
  timex_add : timex_t → timex_t → timex_t
  user_action : Nat → Nat → List Event → List api_call

/-- The static variables of vtimer.c (lines 27-37) and the trace of outgoing
calls. A queue root is the list of the timers linked behind it, head first. -/
structure State where
  longterm_queue_root : List vtimer_t
  shortterm_queue_root : List vtimer_t
  longterm_tick_timer : vtimer_t
  longterm_tick_start : Nat
  in_callback : Bool
  hwtimer_id : Int
  hwtimer_next_absolute : Nat
  seconds : Nat
  trace : List Event
deriving DecidableEq, Repr

/-- Modelled from the spec: `queue_priority_add` of the queue library, which is
not part of vtimer.c. The spec asks for insertion in ascending priority order,
stable (FIFO) on ties: the new node goes in front of the first node whose
priority is strictly greater. -/
def queue_priority_add : List vtimer_t → vtimer_t → List vtimer_t
  | [], new_obj => [new_obj]
  | node :: rest, new_obj =>
    if node.priority > new_obj.priority then new_obj :: node :: rest
    else node :: queue_priority_add rest new_obj

/-- Modelled from the spec: `queue_remove_head` of the queue library: unlink
and return the first node, or NULL (here `none`) on an empty queue. -/
def queue_remove_head : List vtimer_t → Option (vtimer_t × List vtimer_t)
  | [] => none
  | node :: rest => some (node, rest)

/-- Modelled from the spec: `timex_set` of the time arithmetic library, which
builds a time value from seconds and nanoseconds. -/
def timex_set (seconds nanoseconds : Nat) : timex_t :=
  { seconds := seconds, nanoseconds := nanoseconds }

/-- Append one outgoing call to the trace. -/
def State.log (s : State) (e : Event) : State :=
  { s with trace := s.trace ++ [e] }

/-- A call of the driver's `hwtimer_now ()`: the `uint32_t` counter value and
the state with the call recorded. -/
def hwtimer_now (env : Env) (s : State) : Nat × State :=
  let value := env.hwtimer_now s.trace % U32
  (value, s.log (Event.hwtimer_now value))

/-! ## The scheduler (vtimer.c) -/

/-- The function `set_longterm` (lines 39-43). -/
def set_longterm (s : State) (timer : vtimer_t) : State × Int :=
  let timer := { timer with priority := timer.absolute.seconds }
  ({ s with longterm_queue_root := queue_priority_add s.longterm_queue_root timer }, 0)

/-- The function `set_shortterm` (lines 91-96). -/
def set_shortterm (s : State) (timer : vtimer_t) : State × Int :=
  let timer := { timer with priority := timer.absolute.nanoseconds }
  ({ s with shortterm_queue_root := queue_priority_add s.shortterm_queue_root timer }, 1)

/-- Lines 55-67 of `update_shortterm`: cache the head's deadline, translate it
to a counter value, apply the forward-progress guard and arm the hardware.
`head` is the node `shortterm_queue_root.next` points to. -/
def update_shortterm_arm (env : Env) (s : State) (head : vtimer_t) : State × Int :=
  let s := { s with hwtimer_next_absolute := head.priority }
  let next := add32 s.hwtimer_next_absolute s.longterm_tick_start
  let (now, s) := hwtimer_now env s
  let next :=
    if sub32 (sub32 next VTIMER_THRESHOLD) now > NANOSECONDS_PER_TICK then add32 now VTIMER_BACKOFF
    else next
  let id := env.hwtimer_set_absolute s.trace next
  ({ s with hwtimer_id := id, trace := s.trace ++ [Event.hwtimer_set_absolute next id] }, 0)

/-- The function `update_shortterm` (lines 45-68). Reading the priority of the
head of an empty short-term queue dereferences NULL: the result is `none`. -/
def update_shortterm (env : Env) (s : State) : Option (State × Int) :=
  match s.shortterm_queue_root with
  | [] => none
  | head :: _ =>
    if s.hwtimer_id ≠ -1 then
      if s.hwtimer_next_absolute ≠ head.priority then
        some (update_shortterm_arm env (s.log (Event.hwtimer_remove s.hwtimer_id)) head)
      else
        some (s, 0)
    else
      some (update_shortterm_arm env s head)

/-- The promotion loop of `vtimer_tick` (lines 78-86), by recursion on the
long-term queue: while its head's deadline epoch equals `seconds`, the head is
removed and queued short-term. -/
def vtimer_tick_loop : List vtimer_t → State → State
  | [], s => { s with longterm_queue_root := [] }
  | timer :: rest, s =>
    if timer.absolute.seconds = s.seconds then
      vtimer_tick_loop rest (set_shortterm { s with longterm_queue_root := rest } timer).1
    else
      { s with longterm_queue_root := timer :: rest }

/-- The function `vtimer_tick` (lines 70-89), the epoch-wrap handler. -/
def vtimer_tick (env : Env) (s : State) : Option State :=
  let s := { s with seconds := add32 s.seconds SECONDS_PER_TICK }
  let s := { s with longterm_tick_start := s.longterm_tick_timer.absolute.nanoseconds }
  let tick := { s.longterm_tick_timer with
    absolute := { s.longterm_tick_timer.absolute with
      nanoseconds := add32 s.longterm_tick_timer.absolute.nanoseconds NANOSECONDS_PER_TICK } }
  let s := { s with longterm_tick_timer :=
    { tick with priority := tick.absolute.nanoseconds } }
  let s := (set_shortterm s tick).1
  let s := vtimer_tick_loop s.longterm_queue_root s
  match update_shortterm env s with
  | none => none
  | some (s, _) => some s

/-- The function `vtimer_now` (lines 171-174). -/
def vtimer_now (env : Env) (s : State) : timex_t × State :=
  let (now, s) := hwtimer_now env s
  (timex_set s.seconds (sub32 now s.longterm_tick_start), s)

/-- The collaborator `timex_add`, its result stored in a `timex_t`, whose two
fields are `uint32_t`. -/
def timex_add (env : Env) (a b : timex_t) : timex_t :=
  { seconds := (env.timex_add a b).seconds % U32,
    nanoseconds := (env.timex_add a b).nanoseconds % U32 }

/-- Lines 142-146 of `vtimer_set`: the backward nudge of a deadline in epoch zero. -/
def vtimer_set_nudge (absolute : timex_t) : timex_t :=
  if absolute.seconds = 0 then
    if absolute.nanoseconds > 10 then
      { absolute with nanoseconds := absolute.nanoseconds - 10 }
    else absolute
  else absolute

/-- The function `vtimer_set` (lines 132-169). -/
def vtimer_set (env : Env) (s : State) (timer : vtimer_t) : Option (State × Int) :=
  let (now, s) := vtimer_now env s
  let timer := { timer with absolute := timex_add env now timer.absolute }
  let timer := { timer with absolute := normalize_to_tick timer.absolute }
  let timer := { timer with absolute := vtimer_set_nudge timer.absolute }
  let s := s.log Event.disableIRQ
  if timer.absolute.seconds ≠ s.seconds then
    let (s, result) := set_longterm s timer
    some (s.log Event.restoreIRQ, result)
  else
    let (s, queued) := set_shortterm s timer
    if queued ≠ 0 then
      if !s.in_callback then
        match update_shortterm env s with
        | none => none
        | some (s, result) => some (s.log Event.restoreIRQ, result)
      else some (s.log Event.restoreIRQ, 0)
    else some (s.log Event.restoreIRQ, 0)

/-- The function `vtimer_set_wakeup` (lines 196-202); the status of `vtimer_set`
is discarded and 0 returned. -/
def vtimer_set_wakeup (env : Env) (s : State) (t : vtimer_t) (interval : timex_t) (pid : Nat) :
    Option (State × Int) :=
  let t := { t with action := action_t.thread_wakeup, arg := pid, absolute := interval }
  match vtimer_set env s t with
  | none => none
  | some (s, _) => some (s, 0)

/-- The function `vtimer_set_cb` (lines 216-221). -/
def vtimer_set_cb (env : Env) (s : State) (t : vtimer_t) (interval : timex_t)
    (f_ptr : action_t) (ptr : Nat) : Option (State × Int) :=
  let t := { t with action := f_ptr, arg := ptr, absolute := interval }
  vtimer_set env s t

/-- One arming call made by a user callback. -/
def run_api_call (env : Env) (s : State) : api_call → Option State
  | api_call.set_cb t interval f_ptr ptr => (vtimer_set_cb env s t interval f_ptr ptr).map Prod.fst
  | api_call.set_wakeup t interval pid => (vtimer_set_wakeup env s t interval pid).map Prod.fst

/-- The arming calls of a user callback, in program order. -/
def run_api_calls (env : Env) : List api_call → State → Option State
  | [], s => some s
  | c :: cs, s =>
    match run_api_call env s c with
    | none => none
    | some s => run_api_calls env cs s

/-- The call `timer->action (timer->arg)` of line 108. -/
def run_action (env : Env) (s : State) (timer : vtimer_t) : Option State :=
  match timer.action with
  | action_t.vtimer_tick => vtimer_tick env s
  | action_t.thread_wakeup => some (s.log (Event.thread_wakeup timer.arg))
  | action_t.user f => run_api_calls env (env.user_action f timer.arg s.trace) s

/-- The function `vtimer_callback` (lines 98-112), the dispatcher. With an empty
short-term queue `queue_remove_head` returns NULL and line 108 dereferences
it: the result is `none`. -/
def vtimer_callback (env : Env) (s : State) : Option State :=
  let s := { s with in_callback := true }
  let s := { s with hwtimer_id := -1 }
  match queue_remove_head s.shortterm_queue_root with
  | none => none
  | some (timer, rest) =>
    let s := { s with shortterm_queue_root := rest }
    match run_action env (s.log (Event.fire timer.addr)) timer with
    | none => none
    | some s =>
      let s := { s with in_callback := false }
      match update_shortterm env s with
      | none => none
      | some (s, _) => some s

/-- What happens to the scheduler from outside: a thread arms a timer with
`vtimer_set` (through `vtimer_set_cb` or `vtimer_set_wakeup`), or the hardware
timer fires and the driver invokes `vtimer_callback`. -/
inductive Op where
  | set (timer : vtimer_t)
  | fire
deriving DecidableEq, Repr

/-- One operation on the scheduler. -/
def run_op (env : Env) (s : State) : Op → Option State
  | Op.set timer => (vtimer_set env s timer).map Prod.fst
  | Op.fire => vtimer_callback env s

/-- A sequence of operations, in order. -/
def run_ops (env : Env) : List Op → State → Option State
  | [], s => some s
  | op :: ops, s =>
    match run_op env s op with
    | none => none
    | some s => run_ops env ops s

/-- The address of the static record `longterm_tick_timer`. -/
def longterm_tick_timer_addr : Nat := 0

/-- The static storage of vtimer.c before `vtimer_init`: both queues empty, the
integers zero apart from `hwtimer_id = -1`. -/
def boot : State :=
  { longterm_queue_root := [],
    shortterm_queue_root := [],
    longterm_tick_timer :=
      { addr := longterm_tick_timer_addr, priority := 0, absolute := ⟨0, 0⟩,
        action := action_t.vtimer_tick, arg := 0 },
    longterm_tick_start := 0,
    in_callback := false,
    hwtimer_id := -1,
    hwtimer_next_absolute := 0,
    seconds := 0,
    trace := [] }

/-- The function `vtimer_init` (lines 176-194). -/
def vtimer_init (env : Env) (s : State) : Option (State × Int) :=
  let s := s.log Event.disableIRQ
  let s := { s with seconds := 0 }
  let tick := { s.longterm_tick_timer with
    action := action_t.vtimer_tick, arg := 0,
    absolute := { seconds := 0, nanoseconds := NANOSECONDS_PER_TICK } }
  let s := { s with longterm_tick_timer :=
    { tick with priority := tick.absolute.nanoseconds } }
  let s := (set_shortterm s tick).1
  match update_shortterm env s with
  | none => none
  | some (s, _) => some (s.log Event.restoreIRQ, 0)

/-! ## Derived notions used to state the properties -/

/-- The deadline `vtimer_set` has computed after line 136: now plus the interval
held in `timer.absolute`, normalised to the epoch. -/
def vtimer_set_normalized (env : Env) (s : State) (timer : vtimer_t) : timex_t :=
  normalize_to_tick (timex_add env (vtimer_now env s).1 timer.absolute)

/-- The deadline `vtimer_set` stores in `timer->absolute` (after line 146). -/
def vtimer_set_deadline (env : Env) (s : State) (timer : vtimer_t) : timex_t :=
  vtimer_set_nudge (vtimer_set_normalized env s timer)

/-- The record `set_longterm` links into the long-term queue for a timer that
`vtimer_set` has given the deadline `d`. -/
def longterm_entry (timer : vtimer_t) (d : timex_t) : vtimer_t :=
  { timer with absolute := d, priority := d.seconds }

/-- The record `set_shortterm` links into the short-term queue for a timer that
`vtimer_set` has given the deadline `d`. -/
def shortterm_entry (timer : vtimer_t) (d : timex_t) : vtimer_t :=
  { timer with absolute := d, priority := d.nanoseconds }

/-- The counter value lines 57-62 of `update_shortterm` pass to the driver, for
the head deadline `d`, the tick anchor `a` and the counter reading `h`. -/
def armed_value (d a h : Nat) : Nat :=
  if sub32 (sub32 (add32 d a) VTIMER_THRESHOLD) h > NANOSECONDS_PER_TICK then add32 h VTIMER_BACKOFF
  else add32 d a

/-- The short-term queue after the timers of `promoted` have been queued
short-term one after the other, as the promotion loop of `vtimer_tick` does. -/
def promote_all (q : List vtimer_t) (promoted : List vtimer_t) : List vtimer_t :=
  promoted.foldl (fun q t => queue_priority_add q (shortterm_entry t t.absolute)) q

/-- The internal epoch-wrap timer as `vtimer_tick` re-arms it (lines 74-76). -/
def next_tick_timer (s : State) : vtimer_t :=
  shortterm_entry s.longterm_tick_timer
    { s.longterm_tick_timer.absolute with
      nanoseconds := add32 s.longterm_tick_timer.absolute.nanoseconds NANOSECONDS_PER_TICK }

/-- The number of `hwtimer_set_absolute` calls in a trace. -/
def arm_count (tr : List Event) : Nat :=
  (tr.filter Event.is_arm).length

/-- In the queue `q`, the timer `a` is linked ahead of the timer `b`: the pair
`a`, `b` occurs in `q` in this order (other timers may sit before, between and
behind them). The dispatcher always removes the head, so it reaches `a` first. -/
def Ahead (a b : vtimer_t) (q : List vtimer_t) : Prop :=
  List.Sublist [a, b] q

instance Ahead.decidable (a b : vtimer_t) (q : List vtimer_t) : Decidable (Ahead a b q) :=
  inferInstanceAs (Decidable (List.Sublist [a, b] q))

/-- The timer `a` is linked in `q` and no timer in front of it has a greater
priority. -/
def PrefixLe (a : vtimer_t) (q : List vtimer_t) : Prop :=
  ∃ l1 l2, q = l1 ++ a :: l2 ∧ ∀ y ∈ l1, y.priority ≤ a.priority

/-- The state `vtimer_set` leaves behind (the state itself, should the call not
return). -/
def vtimer_set_state (env : Env) (s : State) (timer : vtimer_t) : State :=
  ((vtimer_set env s timer).map Prod.fst).getD s

/-- The timers the next `vtimer_tick` promotes: the longest run at the head of
the long-term queue whose deadline epoch is the epoch about to be reached. -/
def promoted (s : State) : List vtimer_t :=
  s.longterm_queue_root.takeWhile
    (fun t => decide (t.absolute.seconds = add32 s.seconds SECONDS_PER_TICK))

/-- The record an arming call hands to `vtimer_set`. -/
def api_call.timer : api_call → vtimer_t
  | api_call.set_cb t interval f_ptr ptr =>
    { t with action := f_ptr, arg := ptr, absolute := interval }
  | api_call.set_wakeup t interval pid =>
    { t with action := action_t.thread_wakeup, arg := pid, absolute := interval }

/-- The state in which `vtimer_callback` calls the action of `timer` (line 108),
having removed it from the head of the short-term queue and left `rest`. -/
def firing_state (s : State) (timer : vtimer_t) (rest : List vtimer_t) : State :=
  { s with in_callback := true, hwtimer_id := -1, shortterm_queue_root := rest,
           trace := s.trace ++ [Event.fire timer.addr] }

/-- Modelled from the spec: `timex_add` of the time arithmetic library, a
field-wise addition with carry from nanoseconds into seconds, the result's
nanoseconds below one second-equivalent (1000000). Used for concrete runs. -/
def timex_add_carry (a b : timex_t) : timex_t :=
  { seconds := add32 (add32 a.seconds b.seconds) (add32 a.nanoseconds b.nanoseconds / 1000000),
    nanoseconds := add32 a.nanoseconds b.nanoseconds % 1000000 }

/-- A concrete environment: the counter reads `now`, every arming returns the
id `id`, and user callbacks arm nothing. -/
def fixed_env (now : Nat) (id : Int) : Env :=
  { hwtimer_now := fun _ => now,
    hwtimer_set_absolute := fun _ _ => id,
    timex_add := timex_add_carry,
    user_action := fun _ _ _ => [] }

/-- A concrete environment like `fixed_env 0 1` in which every user callback
re-arms two timers: one through `vtimer_set_cb`, one through `vtimer_set_wakeup`. -/
def rearming_env : Env :=
  { hwtimer_now := fun _ => 0,
    hwtimer_set_absolute := fun _ _ => 1,
    timex_add := timex_add_carry,
    user_action := fun f arg _ =>
      [api_call.set_cb
        { addr := 5, priority := 0, absolute := ⟨0, 0⟩, action := action_t.user f, arg := arg }
        ⟨0, 1000⟩ (action_t.user f) arg,
       api_call.set_wakeup
        { addr := 6, priority := 0, absolute := ⟨0, 0⟩, action := action_t.thread_wakeup,
          arg := 0 }
        ⟨0, 2000⟩ 3] }

/-- The state `vtimer_init` leaves when called on the boot state. -/
def initialised (env : Env) : State :=
  ((vtimer_init env boot).map Prod.fst).getD boot

/-- The state a sequence of operations leaves (the state itself, should one of
them not return). -/
def run_ops_state (env : Env) (ops : List Op) (s : State) : State :=
  (run_ops env ops s).getD s

/-- A caller-owned timer at address `addr` holding the interval `interval`, as
handed to `vtimer_set`. -/
def timer_at (addr : Nat) (interval : timex_t) : vtimer_t :=
  { addr := addr, priority := 0, absolute := interval, action := action_t.thread_wakeup,
    arg := addr }

/-- The driver call `update_shortterm` makes before it arms (lines 46-48): a
cancel of the recorded arming, unless none is recorded. -/
def rearm_prelude (s : State) : List Event :=
  if s.hwtimer_id = -1 then [] else [Event.hwtimer_remove s.hwtimer_id]

/-- The counter value `update_shortterm` reads at line 58 when it arms. -/
def rearm_reading (env : Env) (s : State) : Nat :=
  env.hwtimer_now (s.trace ++ rearm_prelude s) % U32

/-- The first carry correction of `normalize_to_tick` is taken: the test of
line 120, `nsecs_tmp < time->nanoseconds`, succeeds. -/
def wrap_branch_taken (time : timex_t) : Bool :=
  decide (add32 time.nanoseconds (mul32 (time.seconds % SECONDS_PER_TICK) 1000000)
    < time.nanoseconds)

/-- The second carry correction of `normalize_to_tick` is taken: the test of
line 124, `nsecs_tmp > NANOSECONDS_PER_TICK`, succeeds on the value the first
correction has left. -/
def over_branch_taken (time : timex_t) : Bool :=
  let nsecs_tmp := add32 time.nanoseconds (mul32 (time.seconds % SECONDS_PER_TICK) 1000000)
  let nsecs_tmp2 :=
    if wrap_branch_taken time then sub32 nsecs_tmp NANOSECONDS_PER_TICK else nsecs_tmp
  decide (nsecs_tmp2 > NANOSECONDS_PER_TICK)

/-- The number of carry corrections `normalize_to_tick` takes on `time`. -/
def carries_taken (time : timex_t) : Nat :=
  (if wrap_branch_taken time then 1 else 0) + (if over_branch_taken time then 1 else 0)

/-- The state is reachable: some sequence of arming calls and dispatcher runs
leads to it from the state `vtimer_init` leaves. Epoch wraps happen inside
dispatcher runs, when the timer fired is the epoch-wrap timer. -/
def Reachable (env : Env) (s : State) : Prop :=
  ∃ ops, run_ops env ops (initialised env) = some s

/-- The internal epoch-wrap timer is linked in the short-term queue, and its
action is `vtimer_tick`. -/
def TickQueued (s : State) : Prop :=
  s.longterm_tick_timer ∈ s.shortterm_queue_root ∧
  s.longterm_tick_timer.action = action_t.vtimer_tick

/-- The long-term queue is in ascending order of deadline epoch, and each of its
timers is keyed by its deadline epoch. -/
def LongtermSorted (q : List vtimer_t) : Prop :=
  List.Pairwise (fun a b => a.priority ≤ b.priority) q ∧
  ∀ t ∈ q, t.priority = t.absolute.seconds

/-- What a call that leaves the scheduler does to the number of outstanding
hardware armings: an arming that returned a valid id adds one, a cancel and a
firing take one away. An arming that returned -1 armed nothing. -/
def Event.arming_delta : Event → Int
  | Event.hwtimer_set_absolute _ id => if id = -1 then 0 else 1
  | Event.hwtimer_remove _ => -1
  | Event.fire _ => -1
  | _ => 0

/-- Armings issued minus armings cancelled or fired, over a trace. -/
def outstanding (tr : List Event) : Int :=
  (tr.map Event.arming_delta).sum

/-- At no point of the trace was more than one arming outstanding, and at its
end none is outstanding unless an arming id is recorded. -/
def Balanced (tr : List Event) (id : Int) : Prop :=
  (∀ p, p <+: tr → outstanding p ≤ 1) ∧ outstanding tr ≤ (if id = -1 then 0 else 1)

/-- The epoch-wrap timer as `vtimer_init` queues it (lines 181-189). -/
def first_tick_timer : vtimer_t :=
  { addr := longterm_tick_timer_addr, priority := NANOSECONDS_PER_TICK,
    absolute := ⟨0, NANOSECONDS_PER_TICK⟩, action := action_t.vtimer_tick, arg := 0 }

/-- The state in which `vtimer_init` calls `update_shortterm` (line 190). -/
def init_prepared : State :=
  { boot with
    shortterm_queue_root := [first_tick_timer],
    longterm_tick_timer := first_tick_timer,
    trace := [Event.disableIRQ] }

/-- A caller-owned timer record at address `addr`, not yet filled in. -/
def blank_timer (addr : Nat) : vtimer_t :=
  { addr := addr, priority := 0, absolute := ⟨0, 0⟩, action := action_t.thread_wakeup, arg := 0 }

end Vtimer

namespace Vtimer

theorem normalize_seconds_nanoseconds (t : timex_t) :
    (normalize_to_tick t).seconds % 4096 = 0 ∧
    (normalize_to_tick t).nanoseconds ≤ 4096000000 ∧
    (normalize_to_tick t).seconds < 4294967296 := by
  simp only [normalize_to_tick, add32, sub32, mul32, SECONDS_PER_TICK, NANOSECONDS_PER_TICK, U32]
  norm_num
  split_ifs <;> omega

theorem normalize_fixed (t : timex_t) (h1 : t.seconds % 4096 = 0)
    (h2 : t.nanoseconds ≤ 4096000000) (h3 : t.seconds < 4294967296) :
    normalize_to_tick t = t := by
  cases t with
  | mk S n =>
    simp only at h1 h2 h3
    simp only [normalize_to_tick, add32, sub32, mul32, SECONDS_PER_TICK, NANOSECONDS_PER_TICK, U32,
      h1]
    norm_num
    have e1 : n % 4294967296 = n := Nat.mod_eq_of_lt (by omega)
    have e2 : (S + 4294967296) % 4294967296 = S := by omega
    have e3 : ¬ (4096000000 < n) := by omega
    have e4 : S % 4294967296 = S := Nat.mod_eq_of_lt h3
    simp [e1, e2, e3, e4]

theorem normalize_idem (t : timex_t) :
    normalize_to_tick (normalize_to_tick t) = normalize_to_tick t := by
  have h := normalize_seconds_nanoseconds t
  exact normalize_fixed _ h.1 h.2.1 h.2.2

theorem normalize_unfold (q r n : Nat) (hr : r < 4096) (hS : 4096 * q + r < 4294967296) :
    normalize_to_tick ⟨4096 * q + r, n⟩ =
      ⟨(if (if (n + r * 1000000) % 4294967296 < n
              then ((n + r * 1000000) % 4294967296 + 4294967296 - 4096000000) % 4294967296
              else (n + r * 1000000) % 4294967296) > 4096000000
          then ((if (n + r * 1000000) % 4294967296 < n then (4096 * q + 4096) % 4294967296
                  else 4096 * q) + 4096) % 4294967296
          else (if (n + r * 1000000) % 4294967296 < n then (4096 * q + 4096) % 4294967296
                  else 4096 * q)),
       (if (if (n + r * 1000000) % 4294967296 < n
              then ((n + r * 1000000) % 4294967296 + 4294967296 - 4096000000) % 4294967296
              else (n + r * 1000000) % 4294967296) > 4096000000
          then ((if (n + r * 1000000) % 4294967296 < n
              then ((n + r * 1000000) % 4294967296 + 4294967296 - 4096000000) % 4294967296
              else (n + r * 1000000) % 4294967296) + 4294967296 - 4096000000) % 4294967296
          else (if (n + r * 1000000) % 4294967296 < n
              then ((n + r * 1000000) % 4294967296 + 4294967296 - 4096000000) % 4294967296
              else (n + r * 1000000) % 4294967296))⟩ := by
  have e0 : r % 4096 = r := Nat.mod_eq_of_lt hr
  have e1 : (r * 1000000) % 4294967296 = r * 1000000 := Nat.mod_eq_of_lt (by omega)
  have e2 : (4096 * q + r + 4294967296 - r) % 4294967296 = 4096 * q := by omega
  have e3 : (4096 * 1000000) % 4294967296 = 4096000000 := by norm_num
  simp only [normalize_to_tick, add32, sub32, mul32, SECONDS_PER_TICK, NANOSECONDS_PER_TICK, U32,
    Nat.mul_add_mod, e0, e1, e2, e3, decide_eq_true_eq]

theorem normalize_cases (q r n : Nat) (hr : r < 4096) (hS : 4096 * q + r < 4294967296)
    (hn : n < 4294967296) :
    (n + r * 1000000 ≤ 4096000000 ∧
      normalize_to_tick ⟨4096 * q + r, n⟩ = ⟨4096 * q, n + r * 1000000⟩) ∨
    (4096000000 < n + r * 1000000 ∧ n + r * 1000000 ≤ 8192000000 ∧
      normalize_to_tick ⟨4096 * q + r, n⟩
        = ⟨(4096 * q + 4096) % 4294967296, n + r * 1000000 - 4096000000⟩) ∨
    (8192000000 < n + r * 1000000 ∧
      normalize_to_tick ⟨4096 * q + r, n⟩
        = ⟨(4096 * q + 8192) % 4294967296, n + r * 1000000 - 8192000000⟩) := by
  rw [normalize_unfold q r n hr hS]
  by_cases hw : n + r * 1000000 < 4294967296
  · have e4 : (n + r * 1000000) % 4294967296 = n + r * 1000000 := Nat.mod_eq_of_lt hw
    have e5 : ¬ (n + r * 1000000 < n) := by omega
    rw [e4, if_neg e5, if_neg e5]
    by_cases ho : n + r * 1000000 > 4096000000
    · have e6 : (n + r * 1000000 + 4294967296 - 4096000000) % 4294967296
          = n + r * 1000000 - 4096000000 := by omega
      rw [if_pos ho, if_pos ho, e6]
      right; left
      exact ⟨by omega, by omega, rfl⟩
    · rw [if_neg ho, if_neg ho]
      left
      exact ⟨by omega, rfl⟩
  · have e4 : (n + r * 1000000) % 4294967296 = n + r * 1000000 - 4294967296 := by omega
    have e5 : n + r * 1000000 - 4294967296 < n := by omega
    have e6 : (n + r * 1000000 - 4294967296 + 4294967296 - 4096000000) % 4294967296
        = n + r * 1000000 - 4096000000 := by omega
    rw [e4, if_pos e5, if_pos e5, e6]
    by_cases ho : n + r * 1000000 - 4096000000 > 4096000000
    · have e7 : (n + r * 1000000 - 4096000000 + 4294967296 - 4096000000) % 4294967296
          = n + r * 1000000 - 8192000000 := by omega
      have e8 : ((4096 * q + 4096) % 4294967296 + 4096) % 4294967296
          = (4096 * q + 8192) % 4294967296 := by omega
      rw [if_pos ho, if_pos ho, e7, e8]
      right; right
      exact ⟨by omega, rfl⟩
    · rw [if_neg ho, if_neg ho]
      right; left
      exact ⟨by omega, by omega, rfl⟩

theorem normalize_value (S n : Nat) (hS : S < 4294967296) (hn : n < 4294967296) :
    (S + 8192 < 4294967296 →
      (normalize_to_tick ⟨S, n⟩).seconds * 1000000 + (normalize_to_tick ⟨S, n⟩).nanoseconds
        = S * 1000000 + n) ∧
    ((normalize_to_tick ⟨S, n⟩).seconds * 1000000 + (normalize_to_tick ⟨S, n⟩).nanoseconds)
        % (4294967296 * 1000000) = (S * 1000000 + n) % (4294967296 * 1000000) := by
  obtain ⟨q, r, hr, rfl⟩ : ∃ q r, r < 4096 ∧ S = 4096 * q + r :=
    ⟨S / 4096, S % 4096, Nat.mod_lt _ (by norm_num), (Nat.div_add_mod S 4096).symm⟩
  have hq : q < 1048576 := by omega
  rcases normalize_cases q r n hr hS hn with ⟨h1, h⟩ | ⟨h1, h2, h⟩ | ⟨h1, h⟩
  · rw [h]; simp only; constructor <;> intros <;> omega
  · rw [h]; simp only
    constructor
    · intro hb
      have : (4096 * q + 4096) % 4294967296 = 4096 * q + 4096 := Nat.mod_eq_of_lt (by omega)
      rw [this]; omega
    · by_cases hb : 4096 * q + 4096 < 4294967296
      · have : (4096 * q + 4096) % 4294967296 = 4096 * q + 4096 := Nat.mod_eq_of_lt hb
        rw [this]
        have : (4096 * q + 4096) * 1000000 + (n + r * 1000000 - 4096000000)
            = (4096 * q + r) * 1000000 + n := by omega
        rw [this]
      · have hq' : q = 1048575 := by omega
        subst hq'
        norm_num
        omega
  · rw [h]; simp only
    constructor
    · intro hb
      have : (4096 * q + 8192) % 4294967296 = 4096 * q + 8192 := Nat.mod_eq_of_lt (by omega)
      rw [this]; omega
    · by_cases hb : 4096 * q + 8192 < 4294967296
      · have : (4096 * q + 8192) % 4294967296 = 4096 * q + 8192 := Nat.mod_eq_of_lt hb
        rw [this]
        have : (4096 * q + 8192) * 1000000 + (n + r * 1000000 - 8192000000)
            = (4096 * q + r) * 1000000 + n := by omega
        rw [this]
      · have hq' : q = 1048575 ∨ q = 1048574 := by omega
        rcases hq' with hq' | hq' <;> subst hq' <;> norm_num <;> omega

/-! ## Queue primitive -/

theorem queue_priority_add_ne_nil (q : List vtimer_t) (x : vtimer_t) :
    queue_priority_add q x ≠ [] := by
  cases q with
  | nil => simp [queue_priority_add]
  | cons y ys =>
    simp only [queue_priority_add]
    split_ifs <;> simp

theorem queue_priority_add_append_le (l1 l2 : List vtimer_t) (x : vtimer_t)
    (h : ∀ y ∈ l1, y.priority ≤ x.priority) :
    queue_priority_add (l1 ++ l2) x = l1 ++ queue_priority_add l2 x := by
  induction l1 with
  | nil => rfl
  | cons y ys ih =>
    have hy : ¬ (y.priority > x.priority) := by
      have := h y (List.mem_cons_self _ _); omega
    have e := ih (fun z hz => h z (List.mem_cons_of_mem _ hz))
    simp [queue_priority_add, hy, e]

theorem queue_priority_add_append_gt (l1 l2 : List vtimer_t) (b x : vtimer_t)
    (h : b.priority > x.priority) :
    queue_priority_add (l1 ++ b :: l2) x = queue_priority_add l1 x ++ b :: l2 := by
  induction l1 with
  | nil => simp [queue_priority_add, h]
  | cons y ys ih =>
    by_cases hy : y.priority > x.priority
    · simp [queue_priority_add, hy]
    · simp [queue_priority_add, hy, ih]

theorem queue_priority_add_split (q : List vtimer_t) (x : vtimer_t) :
    ∃ l r, q = l ++ r ∧ queue_priority_add q x = l ++ x :: r ∧
      ∀ y ∈ l, y.priority ≤ x.priority := by
  induction q with
  | nil => exact ⟨[], [], rfl, rfl, by simp⟩
  | cons y ys ih =>
    by_cases hy : y.priority > x.priority
    · exact ⟨[], y :: ys, rfl, by simp [queue_priority_add, hy], by simp⟩
    · obtain ⟨l, r, h1, h2, h3⟩ := ih
      refine ⟨y :: l, r, by simp [h1], by simp [queue_priority_add, hy, h2], ?_⟩
      intro z hz
      rcases List.mem_cons.1 hz with hz | hz
      · subst hz; omega
      · exact h3 z hz

theorem queue_priority_add_sublist (q : List vtimer_t) (x : vtimer_t) :
    List.Sublist q (queue_priority_add q x) := by
  obtain ⟨l, r, h1, h2, _⟩ := queue_priority_add_split q x
  rw [h2]
  conv_lhs => rw [h1]
  exact List.Sublist.append (List.Sublist.refl l) (List.sublist_cons_self x r)

theorem mem_queue_priority_add_self (q : List vtimer_t) (x : vtimer_t) :
    x ∈ queue_priority_add q x := by
  obtain ⟨l, r, _, h2, _⟩ := queue_priority_add_split q x
  rw [h2]; simp

theorem prefixLe_queue_priority_add_self (q : List vtimer_t) (x : vtimer_t) :
    PrefixLe x (queue_priority_add q x) := by
  obtain ⟨l, r, _, h2, h3⟩ := queue_priority_add_split q x
  exact ⟨l, r, h2, h3⟩

theorem prefixLe_queue_priority_add (q : List vtimer_t) (a x : vtimer_t) (h : PrefixLe a q) :
    PrefixLe a (queue_priority_add q x) := by
  obtain ⟨l1, l2, hq, hle⟩ := h
  subst hq
  by_cases hx : ∀ y ∈ l1, y.priority ≤ x.priority
  · rw [queue_priority_add_append_le l1 (a :: l2) x hx]
    by_cases ha : a.priority > x.priority
    · refine ⟨l1 ++ [x], l2, by simp [queue_priority_add, ha], ?_⟩
      intro y hy
      rcases List.mem_append.1 hy with hy | hy
      · exact hle y hy
      · simp only [List.mem_singleton] at hy; subst hy; omega
    · exact ⟨l1, queue_priority_add l2 x, by simp [queue_priority_add, ha], hle⟩
  · simp only [not_forall, not_le] at hx
    obtain ⟨y, hy, hlt⟩ := hx
    have ha : a.priority > x.priority := by have := hle y hy; omega
    rw [queue_priority_add_append_gt l1 l2 a x ha]
    refine ⟨queue_priority_add l1 x, l2, rfl, ?_⟩
    obtain ⟨l, r, h1, h2, _⟩ := queue_priority_add_split l1 x
    rw [h2]
    intro z hz
    rcases List.mem_append.1 hz with hz | hz
    · exact hle z (by rw [h1]; exact List.mem_append_left _ hz)
    · rcases List.mem_cons.1 hz with hz | hz
      · subst hz; omega
      · exact hle z (by rw [h1]; exact List.mem_append_right _ hz)

theorem ahead_queue_priority_add (q : List vtimer_t) (a b x : vtimer_t) (h : Ahead a b q) :
    Ahead a b (queue_priority_add q x) :=
  List.Sublist.trans h (queue_priority_add_sublist q x)

theorem ahead_of_prefixLe (q : List vtimer_t) (a b : vtimer_t) (h : PrefixLe a q)
    (hab : a.priority ≤ b.priority) : Ahead a b (queue_priority_add q b) := by
  obtain ⟨l1, l2, hq, hle⟩ := h
  subst hq
  have hall : ∀ y ∈ l1 ++ [a], y.priority ≤ b.priority := by
    intro y hy
    rcases List.mem_append.1 hy with hy | hy
    · have := hle y hy; omega
    · simp only [List.mem_singleton] at hy; subst hy; exact hab
  have e : l1 ++ a :: l2 = (l1 ++ [a]) ++ l2 := by simp
  rw [e, queue_priority_add_append_le (l1 ++ [a]) l2 b hall]
  have h1 : List.Sublist [a] (l1 ++ [a]) := List.sublist_append_right l1 [a]
  have h2 : List.Sublist [b] (queue_priority_add l2 b) :=
    List.singleton_sublist.2 (mem_queue_priority_add_self l2 b)
  exact List.Sublist.append h1 h2

theorem ahead_of_mem (q : List vtimer_t) (a b : vtimer_t) (h : b ∈ q)
    (hab : a.priority < b.priority) : Ahead a b (queue_priority_add q a) := by
  obtain ⟨l1, l2, hq⟩ := List.append_of_mem h
  subst hq
  rw [queue_priority_add_append_gt l1 l2 b a hab]
  have h1 : List.Sublist [a] (queue_priority_add l1 a) :=
    List.singleton_sublist.2 (mem_queue_priority_add_self l1 a)
  have h2 : List.Sublist [b] (b :: l2) := List.singleton_sublist.2 (List.mem_cons_self _ _)
  exact List.Sublist.append h1 h2

theorem update_shortterm_total (env : Env) (s : State) (h : s.shortterm_queue_root ≠ []) :
    ∃ s', update_shortterm env s = some (s', 0) := by
  unfold update_shortterm
  cases hq : s.shortterm_queue_root with
  | nil => exact absurd hq h
  | cons head rest =>
    simp only [update_shortterm_arm]
    split_ifs <;> simp

theorem vtimer_set_total (env : Env) (s : State) (timer : vtimer_t) :
    ∃ s', vtimer_set env s timer = some (s', 0) := by
  simp only [vtimer_set, set_longterm, set_shortterm]
  split_ifs with h1 h2 h3
  · simp
  · obtain ⟨s', hs'⟩ := update_shortterm_total env
      { (vtimer_now env s).2.log Event.disableIRQ with
        shortterm_queue_root := queue_priority_add
          ((vtimer_now env s).2.log Event.disableIRQ).shortterm_queue_root
          { timer with
            absolute := vtimer_set_nudge (normalize_to_tick
              (timex_add env (vtimer_now env s).1 timer.absolute)),
            priority := (vtimer_set_nudge (normalize_to_tick
              (timex_add env (vtimer_now env s).1 timer.absolute))).nanoseconds } }
      (queue_priority_add_ne_nil _ _)
    rw [hs']
    simp
  · simp
  · simp

/-! ## Arming policy: idempotent rearm -/

theorem update_shortterm_arm_eq (env : Env) (s : State) (head : vtimer_t) :
    update_shortterm_arm env s head =
      ({ s with
          hwtimer_next_absolute := head.priority,
          hwtimer_id := env.hwtimer_set_absolute
            (s.trace ++ [Event.hwtimer_now (env.hwtimer_now s.trace % U32)])
            (armed_value head.priority s.longterm_tick_start (env.hwtimer_now s.trace % U32)),
          trace := s.trace ++ [Event.hwtimer_now (env.hwtimer_now s.trace % U32),
            Event.hwtimer_set_absolute
              (armed_value head.priority s.longterm_tick_start (env.hwtimer_now s.trace % U32))
              (env.hwtimer_set_absolute
                (s.trace ++ [Event.hwtimer_now (env.hwtimer_now s.trace % U32)])
                (armed_value head.priority s.longterm_tick_start
                  (env.hwtimer_now s.trace % U32)))] },
       0) := by
  simp only [update_shortterm_arm, hwtimer_now, State.log, List.append_assoc,
    List.singleton_append, armed_value]

theorem update_shortterm_arm_spec (env : Env) (s : State) (head : vtimer_t) :
    ∃ now next id, update_shortterm_arm env s head =
      ({ s with hwtimer_next_absolute := head.priority, hwtimer_id := id,
                trace := s.trace ++ [Event.hwtimer_now now, Event.hwtimer_set_absolute next id] },
       0) :=
  ⟨_, _, _, update_shortterm_arm_eq env s head⟩

theorem update_shortterm_noop (env : Env) (s : State) (head : vtimer_t) (rest : List vtimer_t)
    (hq : s.shortterm_queue_root = head :: rest) (h1 : s.hwtimer_id ≠ -1)
    (h2 : s.hwtimer_next_absolute = head.priority) :
    update_shortterm env s = some (s, 0) := by
  simp [update_shortterm, hq, h1, h2]

theorem update_shortterm_cases (env : Env) (s : State) (head : vtimer_t) (rest : List vtimer_t)
    (hq : s.shortterm_queue_root = head :: rest) :
    (s.hwtimer_id ≠ -1 ∧ s.hwtimer_next_absolute = head.priority ∧
      update_shortterm env s = some (s, 0)) ∨
    (∃ pre now next id,
      (pre = [] ∧ s.hwtimer_id = -1 ∨
        pre = [Event.hwtimer_remove s.hwtimer_id] ∧ s.hwtimer_id ≠ -1 ∧
          s.hwtimer_next_absolute ≠ head.priority) ∧
      update_shortterm env s = some
        ({ s with hwtimer_next_absolute := head.priority, hwtimer_id := id,
                  trace := s.trace ++ pre ++
                    [Event.hwtimer_now now, Event.hwtimer_set_absolute next id] }, 0)) := by
  by_cases h1 : s.hwtimer_id = -1
  · right
    obtain ⟨now, next, id, h⟩ := update_shortterm_arm_spec env s head
    refine ⟨[], now, next, id, Or.inl ⟨rfl, h1⟩, ?_⟩
    simp [update_shortterm, hq, h1, h]
  · by_cases h2 : s.hwtimer_next_absolute = head.priority
    · left
      exact ⟨h1, h2, update_shortterm_noop env s head rest hq h1 h2⟩
    · right
      obtain ⟨now, next, id, h⟩ :=
        update_shortterm_arm_spec env (s.log (Event.hwtimer_remove s.hwtimer_id)) head
      refine ⟨[Event.hwtimer_remove s.hwtimer_id], now, next, id, Or.inr ⟨rfl, h1, h2⟩, ?_⟩
      simp only [update_shortterm, hq, ne_eq, h1, not_false_eq_true, if_true, h2, h]
      simp [State.log, hq]

theorem update_shortterm_trace (env : Env) (s s' : State) (r : Int)
    (h : update_shortterm env s = some (s', r)) : ∃ added, s'.trace = s.trace ++ added := by
  cases hq : s.shortterm_queue_root with
  | nil => simp [update_shortterm, hq] at h
  | cons head rest =>
    rcases update_shortterm_cases env s head rest hq with ⟨_, _, h3⟩ | ⟨pre, now, next, id, _, h3⟩
    · rw [h3] at h
      simp only [Option.some.injEq, Prod.mk.injEq] at h
      exact ⟨[], by rw [← h.1]; simp⟩
    · rw [h3] at h
      simp only [Option.some.injEq, Prod.mk.injEq] at h
      exact ⟨pre ++ [Event.hwtimer_now now, Event.hwtimer_set_absolute next id], by
        rw [← h.1]; simp⟩

theorem update_shortterm_frame (env : Env) (s s' : State) (r : Int)
    (h : update_shortterm env s = some (s', r)) :
    r = 0 ∧ s'.shortterm_queue_root = s.shortterm_queue_root ∧
    s'.longterm_queue_root = s.longterm_queue_root ∧ s'.seconds = s.seconds ∧
    s'.in_callback = s.in_callback ∧ s'.longterm_tick_start = s.longterm_tick_start ∧
    s'.longterm_tick_timer = s.longterm_tick_timer := by
  unfold update_shortterm at h
  cases hq : s.shortterm_queue_root with
  | nil => simp [hq] at h
  | cons head rest =>
    simp only [hq, update_shortterm_arm, hwtimer_now, State.log] at h
    split_ifs at h <;> simp only [Option.some.injEq, Prod.mk.injEq] at h <;>
      obtain ⟨h1, h2⟩ := h <;> subst h1 <;> simp [hq, h2.symm]

theorem vtimer_set_longterm_eq (env : Env) (s : State) (timer : vtimer_t)
    (h : (vtimer_set_normalized env s timer).seconds ≠ s.seconds) :
    vtimer_set env s timer = some
      ({ s with
          longterm_queue_root := queue_priority_add s.longterm_queue_root
            (longterm_entry timer (vtimer_set_deadline env s timer)),
          trace := s.trace ++ [Event.hwtimer_now (env.hwtimer_now s.trace % U32),
            Event.disableIRQ, Event.restoreIRQ] }, 0) := by
  have hn : (vtimer_set_nudge (vtimer_set_normalized env s timer)).seconds
      = (vtimer_set_normalized env s timer).seconds := by
    unfold vtimer_set_nudge; split_ifs <;> rfl
  have h' : (vtimer_set_nudge (normalize_to_tick
      (timex_add env (vtimer_now env s).1 timer.absolute))).seconds ≠ s.seconds := by
    rw [← hn] at h; exact h
  simp only [vtimer_set, set_longterm, State.log]
  rw [if_pos (by simpa [vtimer_now, hwtimer_now, State.log] using h')]
  simp [vtimer_now, hwtimer_now, State.log, longterm_entry, vtimer_set_deadline,
    vtimer_set_normalized]

theorem vtimer_set_nudge_seconds (d : timex_t) : (vtimer_set_nudge d).seconds = d.seconds := by
  unfold vtimer_set_nudge; split_ifs <;> rfl

theorem vtimer_set_in_callback_eq (env : Env) (s : State) (timer : vtimer_t)
    (h : (vtimer_set_normalized env s timer).seconds = s.seconds) (hc : s.in_callback = true) :
    vtimer_set env s timer = some
      ({ s with
          shortterm_queue_root := queue_priority_add s.shortterm_queue_root
            (shortterm_entry timer (vtimer_set_deadline env s timer)),
          trace := s.trace ++ [Event.hwtimer_now (env.hwtimer_now s.trace % U32),
            Event.disableIRQ, Event.restoreIRQ] }, 0) := by
  have h' : (vtimer_set_nudge (normalize_to_tick
      (timex_add env (vtimer_now env s).1 timer.absolute))).seconds = s.seconds := by
    rw [vtimer_set_nudge_seconds]; exact h
  simp only [vtimer_set, set_shortterm, State.log]
  rw [if_neg (by simpa [vtimer_now, hwtimer_now, State.log] using h')]
  simp [vtimer_now, hwtimer_now, State.log, shortterm_entry, vtimer_set_deadline,
    vtimer_set_normalized, hc]

theorem vtimer_set_shortterm_eq (env : Env) (s : State) (timer : vtimer_t)
    (h : (vtimer_set_normalized env s timer).seconds = s.seconds) :
    ∃ s', vtimer_set env s timer = some (s', 0) ∧
      s'.shortterm_queue_root = queue_priority_add s.shortterm_queue_root
        (shortterm_entry timer (vtimer_set_deadline env s timer)) ∧
      s'.longterm_queue_root = s.longterm_queue_root ∧ s'.seconds = s.seconds ∧
      s'.in_callback = s.in_callback ∧ s'.longterm_tick_start = s.longterm_tick_start ∧
      s'.longterm_tick_timer = s.longterm_tick_timer ∧
      ∃ added, s'.trace = s.trace ++ added := by
  by_cases hc : s.in_callback = true
  · exact ⟨_, vtimer_set_in_callback_eq env s timer h hc, rfl, rfl, rfl, rfl, rfl, rfl, _, rfl⟩
  · have h' : (vtimer_set_nudge (normalize_to_tick
        (timex_add env (vtimer_now env s).1 timer.absolute))).seconds = s.seconds := by
      rw [vtimer_set_nudge_seconds]; exact h
    simp only [vtimer_set, set_shortterm, State.log]
    rw [if_neg (by simpa [vtimer_now, hwtimer_now, State.log] using h')]
    simp only [vtimer_now, hwtimer_now, State.log, hc, ne_eq, one_ne_zero, not_false_eq_true,
      if_true, Bool.not_false, Bool.not_eq_true, timex_set]
    obtain ⟨s1, hs1⟩ := update_shortterm_total env
      { s with
        shortterm_queue_root := queue_priority_add s.shortterm_queue_root
          (shortterm_entry timer (vtimer_set_deadline env s timer)),
        trace := s.trace ++ [Event.hwtimer_now (env.hwtimer_now s.trace % U32)]
          ++ [Event.disableIRQ] }
      (queue_priority_add_ne_nil _ _)
    have hf := update_shortterm_frame env _ s1 0 hs1
    simp only [shortterm_entry, vtimer_set_deadline, vtimer_set_normalized, vtimer_now,
      hwtimer_now, State.log, timex_set] at hs1 hf
    simp only [Bool.not_eq_true] at hc
    obtain ⟨added, ha⟩ := update_shortterm_trace env _ s1 0 hs1
    simp only [hc] at hs1 hf
    simp only at ha
    rw [hs1]
    exact ⟨_, rfl, hf.2.1, hf.2.2.1, hf.2.2.2.1, by simp [hf.2.2.2.2.1, hc], hf.2.2.2.2.2.1,
      hf.2.2.2.2.2.2,
      [Event.hwtimer_now (env.hwtimer_now s.trace % U32), Event.disableIRQ] ++ added
        ++ [Event.restoreIRQ], by simp [ha]⟩

theorem update_shortterm_idem (env : Env) (s : State) (hq : s.shortterm_queue_root ≠ [])
    (hid : ∀ s1, update_shortterm env s = some (s1, 0) → s1.hwtimer_id ≠ -1) :
    ∃ s1 added head rest,
      update_shortterm env s = some (s1, 0) ∧
      s1.trace = s.trace ++ added ∧ arm_count added ≤ 1 ∧
      s1.shortterm_queue_root = head :: rest ∧ s1.hwtimer_next_absolute = head.priority ∧
      update_shortterm env s1 = some (s1, 0) := by
  cases hq' : s.shortterm_queue_root with
  | nil => exact absurd hq' hq
  | cons head rest =>
    rcases update_shortterm_cases env s head rest hq' with ⟨h1, h2, h3⟩ | ⟨pre, now, next, id, hp, h3⟩
    · exact ⟨s, [], head, rest, h3, by simp, by simp [arm_count], hq', h2, h3⟩
    · have hv := hid _ h3
      simp only at hv
      refine ⟨_, pre ++ [Event.hwtimer_now now, Event.hwtimer_set_absolute next id], head, rest,
        h3, by simp, ?_, hq', rfl, ?_⟩
      · rcases hp with ⟨hp, _⟩ | ⟨hp, _⟩ <;> subst hp <;> simp [arm_count, Event.is_arm]
      · exact update_shortterm_noop env _ head rest hq' hv rfl

/-! ## Epoch wrap -/

theorem vtimer_tick_loop_eq (lt : List vtimer_t) (s : State) :
    vtimer_tick_loop lt s =
      { s with
        longterm_queue_root := lt.dropWhile (fun t => decide (t.absolute.seconds = s.seconds)),
        shortterm_queue_root := promote_all s.shortterm_queue_root
          (lt.takeWhile (fun t => decide (t.absolute.seconds = s.seconds))) } := by
  induction lt generalizing s with
  | nil => simp [vtimer_tick_loop, promote_all]
  | cons t rest ih =>
    by_cases h : t.absolute.seconds = s.seconds
    · simp only [vtimer_tick_loop, h, if_true, ih, set_shortterm]
      simp [List.dropWhile, List.takeWhile, h, promote_all, shortterm_entry]
    · simp [vtimer_tick_loop, h, List.dropWhile, List.takeWhile, promote_all]

theorem promote_all_append (q xs ys : List vtimer_t) :
    promote_all q (xs ++ ys) = promote_all (promote_all q xs) ys := by
  simp [promote_all, List.foldl_append]

theorem promote_all_cons (q : List vtimer_t) (x : vtimer_t) (xs : List vtimer_t) :
    promote_all q (x :: xs)
      = promote_all (queue_priority_add q (shortterm_entry x x.absolute)) xs := rfl

theorem promote_all_sublist (q xs : List vtimer_t) : List.Sublist q (promote_all q xs) := by
  induction xs generalizing q with
  | nil => exact List.Sublist.refl q
  | cons x xs ih =>
    rw [promote_all_cons]
    exact List.Sublist.trans (queue_priority_add_sublist q _) (ih _)

theorem prefixLe_promote_all (q xs : List vtimer_t) (a : vtimer_t) (h : PrefixLe a q) :
    PrefixLe a (promote_all q xs) := by
  induction xs generalizing q with
  | nil => exact h
  | cons x xs ih =>
    rw [promote_all_cons]
    exact ih _ (prefixLe_queue_priority_add q a _ h)

theorem pair_sublist_split (a b : vtimer_t) (xs : List vtimer_t) (h : List.Sublist [a, b] xs) :
    ∃ u v w, xs = u ++ a :: (v ++ b :: w) := by
  obtain ⟨r1, r2, hx, ha, hb⟩ := List.cons_sublist_iff.1 h
  obtain ⟨u, v1, hr1⟩ := List.append_of_mem ha
  obtain ⟨v2, w, hr2⟩ := List.append_of_mem (List.singleton_sublist.1 hb)
  refine ⟨u, v1 ++ v2, w, ?_⟩
  rw [hx, hr1, hr2]
  simp

theorem ahead_promote_all_of_le (q xs : List vtimer_t) (a b : vtimer_t)
    (h : List.Sublist [a, b] xs) (hab : a.absolute.nanoseconds ≤ b.absolute.nanoseconds) :
    Ahead (shortterm_entry a a.absolute) (shortterm_entry b b.absolute) (promote_all q xs) := by
  obtain ⟨u, v, w, hx⟩ := pair_sublist_split a b xs h
  subst hx
  rw [promote_all_append, promote_all_cons, promote_all_append, promote_all_cons]
  have h1 := prefixLe_promote_all _ v _
    (prefixLe_queue_priority_add_self (promote_all q u) (shortterm_entry a a.absolute))
  have h2 := ahead_of_prefixLe _ _ (shortterm_entry b b.absolute) h1 hab
  exact List.Sublist.trans h2 (promote_all_sublist _ w)

theorem ahead_promote_all_of_lt (q xs : List vtimer_t) (a b : vtimer_t)
    (ha : a ∈ xs) (hb : b ∈ xs) (hab : a.absolute.nanoseconds < b.absolute.nanoseconds) :
    Ahead (shortterm_entry a a.absolute) (shortterm_entry b b.absolute) (promote_all q xs) := by
  have hne : b ≠ a := by
    intro e; rw [e] at hab; exact Nat.lt_irrefl _ hab
  obtain ⟨u, v, hx⟩ := List.append_of_mem ha
  subst hx
  rcases List.mem_append.1 hb with hb | hb
  · obtain ⟨u1, u2, hu⟩ := List.append_of_mem hb
    subst hu
    have e : u1 ++ b :: u2 ++ a :: v = u1 ++ b :: (u2 ++ a :: v) := by simp
    rw [e, promote_all_append, promote_all_cons, promote_all_append, promote_all_cons]
    have h1 : shortterm_entry b b.absolute ∈ promote_all
        (queue_priority_add (promote_all q u1) (shortterm_entry b b.absolute)) u2 :=
      List.Sublist.subset (promote_all_sublist _ u2) (mem_queue_priority_add_self _ _)
    have h2 := ahead_of_mem _ (shortterm_entry a a.absolute) _ h1 hab
    exact List.Sublist.trans h2 (promote_all_sublist _ v)
  · rcases List.mem_cons.1 hb with hb | hb
    · exact absurd hb hne
    · apply ahead_promote_all_of_le _ _ a b _ (Nat.le_of_lt hab)
      have h1 : List.Sublist [a] (u ++ [a]) := List.sublist_append_right u [a]
      have h2 : List.Sublist [b] v := List.singleton_sublist.2 hb
      have e : u ++ a :: v = (u ++ [a]) ++ v := by simp
      rw [e]
      exact List.Sublist.append h1 h2

theorem promote_all_ne_nil (q promoted : List vtimer_t) (h : q ≠ []) :
    promote_all q promoted ≠ [] := by
  induction promoted generalizing q with
  | nil => simpa [promote_all] using h
  | cons t rest ih =>
    simp only [promote_all, List.foldl_cons]
    exact ih _ (queue_priority_add_ne_nil _ _)

theorem vtimer_tick_spec (env : Env) (s : State) :
    ∃ s', vtimer_tick env s = some s' ∧
      s'.seconds = add32 s.seconds SECONDS_PER_TICK ∧
      s'.longterm_tick_start = s.longterm_tick_timer.absolute.nanoseconds ∧
      s'.longterm_tick_timer = next_tick_timer s ∧
      s'.in_callback = s.in_callback ∧
      s'.longterm_queue_root = s.longterm_queue_root.dropWhile
        (fun t => decide (t.absolute.seconds = add32 s.seconds SECONDS_PER_TICK)) ∧
      s'.shortterm_queue_root = promote_all
        (queue_priority_add s.shortterm_queue_root (next_tick_timer s))
        (s.longterm_queue_root.takeWhile
          (fun t => decide (t.absolute.seconds = add32 s.seconds SECONDS_PER_TICK))) := by
  simp only [vtimer_tick, set_shortterm, vtimer_tick_loop_eq]
  obtain ⟨s1, hs1⟩ := update_shortterm_total env
    { s with
      seconds := add32 s.seconds SECONDS_PER_TICK,
      longterm_tick_start := s.longterm_tick_timer.absolute.nanoseconds,
      longterm_tick_timer := next_tick_timer s,
      longterm_queue_root := s.longterm_queue_root.dropWhile
        (fun t => decide (t.absolute.seconds = add32 s.seconds SECONDS_PER_TICK)),
      shortterm_queue_root := promote_all
        (queue_priority_add s.shortterm_queue_root (next_tick_timer s))
        (s.longterm_queue_root.takeWhile
          (fun t => decide (t.absolute.seconds = add32 s.seconds SECONDS_PER_TICK))) }
    (promote_all_ne_nil _ _ (queue_priority_add_ne_nil _ _))
  have hf := update_shortterm_frame env _ s1 0 hs1
  simp only [next_tick_timer, shortterm_entry] at hs1 hf
  simp only [next_tick_timer, shortterm_entry]
  rw [hs1]
  exact ⟨s1, rfl, hf.2.2.2.1, hf.2.2.2.2.2.1, hf.2.2.2.2.2.2, hf.2.2.2.2.1, hf.2.2.1, hf.2.1⟩

theorem vtimer_tick_trace (env : Env) (s s' : State) (h : vtimer_tick env s = some s') :
    ∃ added, s'.trace = s.trace ++ added := by
  simp only [vtimer_tick, set_shortterm, vtimer_tick_loop_eq] at h
  split at h
  · exact absurd h (by simp)
  · rename_i s1 r hu
    simp only [Option.some.injEq] at h
    subst h
    have ht := update_shortterm_trace env _ _ _ hu
    exact ht

/-! ## Arming from inside the dispatcher -/

theorem vtimer_set_in_callback_spec (env : Env) (s : State) (timer : vtimer_t)
    (hc : s.in_callback = true) :
    ∃ s', vtimer_set env s timer = some (s', 0) ∧
      s'.in_callback = true ∧ s'.hwtimer_id = s.hwtimer_id ∧
      List.Sublist s.shortterm_queue_root s'.shortterm_queue_root ∧
      s'.trace = s.trace ++ [Event.hwtimer_now (env.hwtimer_now s.trace % U32),
        Event.disableIRQ, Event.restoreIRQ] := by
  by_cases h : (vtimer_set_normalized env s timer).seconds = s.seconds
  · exact ⟨_, vtimer_set_in_callback_eq env s timer h hc, hc, rfl,
      queue_priority_add_sublist _ _, rfl⟩
  · exact ⟨_, vtimer_set_longterm_eq env s timer h, hc, rfl, List.Sublist.refl _, rfl⟩

theorem run_api_call_in_callback_spec (env : Env) (s : State) (c : api_call)
    (hc : s.in_callback = true) :
    ∃ s', run_api_call env s c = some s' ∧
      s'.in_callback = true ∧ s'.hwtimer_id = s.hwtimer_id ∧
      List.Sublist s.shortterm_queue_root s'.shortterm_queue_root ∧
      s'.trace = s.trace ++ [Event.hwtimer_now (env.hwtimer_now s.trace % U32),
        Event.disableIRQ, Event.restoreIRQ] := by
  cases c with
  | set_cb t interval f_ptr ptr =>
    obtain ⟨s', h1, h2⟩ := vtimer_set_in_callback_spec env s
      { t with action := f_ptr, arg := ptr, absolute := interval } hc
    exact ⟨s', by simp [run_api_call, vtimer_set_cb, h1], h2⟩
  | set_wakeup t interval pid =>
    obtain ⟨s', h1, h2⟩ := vtimer_set_in_callback_spec env s
      { t with action := action_t.thread_wakeup, arg := pid, absolute := interval } hc
    exact ⟨s', by simp [run_api_call, vtimer_set_wakeup, h1], h2⟩

theorem run_api_calls_in_callback_spec (env : Env) (calls : List api_call) (s : State)
    (hc : s.in_callback = true) :
    ∃ s' inner, run_api_calls env calls s = some s' ∧
      s'.in_callback = true ∧ s'.hwtimer_id = s.hwtimer_id ∧
      List.Sublist s.shortterm_queue_root s'.shortterm_queue_root ∧
      s'.trace = s.trace ++ inner ∧ inner.length = 3 * calls.length ∧
      ∀ e ∈ inner, e.is_arm = false ∧ e.is_cancel = false := by
  induction calls generalizing s with
  | nil => exact ⟨s, [], rfl, hc, rfl, List.Sublist.refl _, by simp, rfl, by simp⟩
  | cons c cs ih =>
    obtain ⟨s1, h1, h2, h3, h4, h5⟩ := run_api_call_in_callback_spec env s c hc
    obtain ⟨s2, inner, k1, k2, k3, k4, k5, k6, k7⟩ := ih s1 h2
    refine ⟨s2, [Event.hwtimer_now (env.hwtimer_now s.trace % U32), Event.disableIRQ,
      Event.restoreIRQ] ++ inner, by simp [run_api_calls, h1, k1], k2, by rw [k3, h3],
      List.Sublist.trans h4 k4, by rw [k5, h5]; simp, by simp [k6]; omega, ?_⟩
    intro e he
    rcases List.mem_append.1 he with he | he
    · simp only [List.mem_cons, List.mem_singleton, List.not_mem_nil, or_false] at he
      rcases he with he | he | he <;> subst he <;> simp [Event.is_arm, Event.is_cancel]
    · exact k7 e he

theorem run_action_sublist (env : Env) (s s' : State) (timer : vtimer_t)
    (hc : s.in_callback = true) (h : run_action env s timer = some s') :
    List.Sublist s.shortterm_queue_root s'.shortterm_queue_root ∧ s.trace <+: s'.trace := by
  unfold run_action at h
  cases ha : timer.action with
  | vtimer_tick =>
    simp only [ha] at h
    obtain ⟨s1, h1, _, _, _, _, _, h7⟩ := vtimer_tick_spec env s
    obtain ⟨added, ht⟩ := vtimer_tick_trace env s s' h
    rw [h1] at h
    cases h
    rw [h7]
    exact ⟨List.Sublist.trans (queue_priority_add_sublist _ _) (promote_all_sublist _ _), by
      rw [ht]; exact List.prefix_append _ _⟩
  | thread_wakeup =>
    simp only [ha, Option.some.injEq] at h
    subst h
    exact ⟨List.Sublist.refl _, by simp [State.log]⟩
  | user f =>
    simp only [ha] at h
    obtain ⟨s1, inner, h1, _, _, h4, h5, _⟩ :=
      run_api_calls_in_callback_spec env (env.user_action f timer.arg s.trace) s hc
    rw [h1] at h
    cases h
    exact ⟨h4, by rw [h5]; exact List.prefix_append _ _⟩

theorem vtimer_callback_spec (env : Env) (s s' : State) (t : vtimer_t) (rest : List vtimer_t)
    (hq : s.shortterm_queue_root = t :: rest) (h : vtimer_callback env s = some s') :
    (∃ tr, s'.trace = s.trace ++ Event.fire t.addr :: tr) ∧
    List.Sublist rest s'.shortterm_queue_root ∧ s'.in_callback = false := by
  simp only [vtimer_callback, hq, queue_remove_head] at h
  split at h
  · exact absurd h (by simp)
  · rename_i s1 ha
    split at h
    · exact absurd h (by simp)
    · rename_i s2 r hu
      simp only [Option.some.injEq] at h
      subst h
      have hf := update_shortterm_frame env _ _ _ hu
      obtain ⟨added, ht⟩ := update_shortterm_trace env _ _ _ hu
      have hs := run_action_sublist env _ s1 t (by simp [State.log]) ha
      obtain ⟨mid, hm⟩ := hs.2
      simp only [State.log] at hs hm
      simp only at hf ht
      refine ⟨⟨mid ++ added, ?_⟩, ?_, ?_⟩
      · rw [ht, ← hm]; simp
      · rw [hf.2.1]; exact hs.1
      · rw [hf.2.2.2.2.1]

theorem vtimer_callback_ahead (env : Env) (s s' : State) (a b : vtimer_t)
    (hab : Ahead a b s.shortterm_queue_root) (h : vtimer_callback env s = some s') :
    s.shortterm_queue_root.head? = some a ∨ Ahead a b s'.shortterm_queue_root := by
  cases hq : s.shortterm_queue_root with
  | nil => rw [hq] at hab; exact absurd hab (by simp [Ahead])
  | cons t rest =>
    have hs := (vtimer_callback_spec env s s' t rest hq h).2.1
    by_cases hta : t = a
    · left; simp [hta]
    · right
      rw [hq] at hab
      unfold Ahead at hab ⊢
      rcases List.sublist_cons_iff.1 hab with h1 | ⟨r, hr, _⟩
      · exact List.Sublist.trans h1 hs
      · simp only [List.cons.injEq] at hr
        exact absurd hr.1.symm hta

/-! ## Queue order of armed timers -/

theorem vtimer_set_state_eq (env : Env) (s : State) (timer : vtimer_t) :
    vtimer_set env s timer = some (vtimer_set_state env s timer, 0) := by
  obtain ⟨s', h⟩ := vtimer_set_total env s timer
  simp [vtimer_set_state, h]

theorem vtimer_set_state_shortterm (env : Env) (s : State) (timer : vtimer_t)
    (h : (vtimer_set_normalized env s timer).seconds = s.seconds) :
    (vtimer_set_state env s timer).shortterm_queue_root
        = queue_priority_add s.shortterm_queue_root
            (shortterm_entry timer (vtimer_set_deadline env s timer)) ∧
    (vtimer_set_state env s timer).longterm_queue_root = s.longterm_queue_root ∧
    (vtimer_set_state env s timer).seconds = s.seconds := by
  obtain ⟨s', h1, h2, h3, h4, _⟩ := vtimer_set_shortterm_eq env s timer h
  simp [vtimer_set_state, h1, h2, h3, h4]

theorem vtimer_set_state_longterm (env : Env) (s : State) (timer : vtimer_t)
    (h : (vtimer_set_normalized env s timer).seconds ≠ s.seconds) :
    (vtimer_set_state env s timer).longterm_queue_root
        = queue_priority_add s.longterm_queue_root
            (longterm_entry timer (vtimer_set_deadline env s timer)) ∧
    (vtimer_set_state env s timer).shortterm_queue_root = s.shortterm_queue_root ∧
    (vtimer_set_state env s timer).seconds = s.seconds := by
  simp [vtimer_set_state, vtimer_set_longterm_eq env s timer h]

theorem vtimer_tick_promotes (env : Env) (s : State) :
    ∃ s', vtimer_tick env s = some s' ∧
      s'.shortterm_queue_root = promote_all
        (queue_priority_add s.shortterm_queue_root (next_tick_timer s)) (promoted s) := by
  obtain ⟨s', h1, _, _, _, _, _, h7⟩ := vtimer_tick_spec env s
  exact ⟨s', h1, h7⟩

theorem run_api_call_eq (env : Env) (s : State) (c : api_call) :
    run_api_call env s c = some (vtimer_set_state env s c.timer) := by
  cases c <;>
    simp [run_api_call, vtimer_set_cb, vtimer_set_wakeup, api_call.timer,
      vtimer_set_state_eq]

theorem run_api_calls_nonempty (env : Env) (calls : List api_call) (s s' : State)
    (hc : s.in_callback = true) (h : run_api_calls env calls s = some s')
    (hne : s.shortterm_queue_root ≠ [] ∨
      ∃ c cs, calls = c :: cs ∧ (vtimer_set_normalized env s c.timer).seconds = s.seconds) :
    s'.shortterm_queue_root ≠ [] := by
  rcases hne with hne | ⟨c, cs, hcs, hshort⟩
  · obtain ⟨s1, inner, h1, _, _, h4, _⟩ := run_api_calls_in_callback_spec env calls s hc
    rw [h1] at h
    cases h
    intro e
    rw [e] at h4
    exact hne (List.eq_nil_of_sublist_nil h4)
  · subst hcs
    simp only [run_api_calls, run_api_call_eq] at h
    have hq := (vtimer_set_state_shortterm env s c.timer hshort).1
    obtain ⟨s0, k1, k2, _⟩ := vtimer_set_in_callback_spec env s c.timer hc
    have e0 : vtimer_set_state env s c.timer = s0 := by simp [vtimer_set_state, k1]
    obtain ⟨s1, inner, h1, _, _, h4, _⟩ :=
      run_api_calls_in_callback_spec env cs (vtimer_set_state env s c.timer)
        (by rw [e0]; exact k2)
    rw [h1] at h
    cases h
    intro e
    rw [e, hq] at h4
    exact queue_priority_add_ne_nil _ _ (List.eq_nil_of_sublist_nil h4)

theorem vtimer_callback_user_spec (env : Env) (s : State) (timer : vtimer_t)
    (rest : List vtimer_t) (f : Nat)
    (hq : s.shortterm_queue_root = timer :: rest) (hf : timer.action = action_t.user f)
    (hne : rest ≠ [] ∨
      ∃ c cs, env.user_action f timer.arg (firing_state s timer rest).trace = c :: cs ∧
        (vtimer_set_normalized env (firing_state s timer rest) c.timer).seconds = s.seconds) :
    ∃ s' inner now next id,
      vtimer_callback env s = some s' ∧
      s'.trace = s.trace ++ Event.fire timer.addr ::
        (inner ++ [Event.hwtimer_now now, Event.hwtimer_set_absolute next id]) ∧
      inner.length = 3 * (env.user_action f timer.arg (firing_state s timer rest).trace).length ∧
      (∀ e ∈ inner, e.is_arm = false ∧ e.is_cancel = false) ∧
      arm_count (Event.fire timer.addr ::
        (inner ++ [Event.hwtimer_now now, Event.hwtimer_set_absolute next id])) = 1 ∧
      s'.in_callback = false := by
  have hfs : firing_state s timer rest =
      State.log { s with in_callback := true, hwtimer_id := -1, shortterm_queue_root := rest }
        (Event.fire timer.addr) := rfl
  obtain ⟨s1, inner, h1, h2, h3, h4, h5, h6, h7⟩ :=
    run_api_calls_in_callback_spec env
      (env.user_action f timer.arg (firing_state s timer rest).trace)
      (firing_state s timer rest) rfl
  have hne1 : s1.shortterm_queue_root ≠ [] :=
    run_api_calls_nonempty env _ _ s1 rfl h1 hne
  cases hq1 : s1.shortterm_queue_root with
  | nil => exact absurd hq1 hne1
  | cons head tail =>
    have hid : ({ s1 with in_callback := false } : State).hwtimer_id = -1 := h3
    rcases update_shortterm_cases env { s1 with in_callback := false } head tail hq1 with
      ⟨k1, _, _⟩ | ⟨pre, now, next, id, hp, k3⟩
    · exact absurd hid k1
    · have hpre : pre = [] := by
        rcases hp with ⟨hp, _⟩ | ⟨_, hp, _⟩
        · exact hp
        · exact absurd hid hp
      subst hpre
      refine ⟨{ s1 with
          in_callback := false
          hwtimer_next_absolute := head.priority
          hwtimer_id := id
          trace := s1.trace ++ [] ++
            [Event.hwtimer_now now, Event.hwtimer_set_absolute next id] },
        inner, now, next, id, ?_, ?_, h6, h7, ?_, rfl⟩
      · simp only [vtimer_callback, hq, queue_remove_head, run_action, hf]
        rw [← hfs, h1]
        simp only [k3]
      · simp [h5, firing_state]
      · have hz : (inner.filter Event.is_arm) = [] := by
          rw [List.filter_eq_nil_iff]
          intro e he
          simp [(h7 e he).1]
        simp [arm_count, List.filter_cons, Event.is_arm, hz]

theorem vtimer_set_deadline_seconds (env : Env) (s : State) (P : vtimer_t) :
    (vtimer_set_deadline env s P).seconds = (vtimer_set_normalized env s P).seconds :=
  vtimer_set_nudge_seconds _

theorem tick_order_of_le (env : Env) (s3 : State) (a b : vtimer_t)
    (hab : Ahead a b (promoted s3))
    (hn : a.absolute.nanoseconds ≤ b.absolute.nanoseconds) :
    ∃ s4, vtimer_tick env s3 = some s4 ∧
      Ahead (shortterm_entry a a.absolute) (shortterm_entry b b.absolute)
        s4.shortterm_queue_root := by
  obtain ⟨s4, h1, h2⟩ := vtimer_tick_promotes env s3
  exact ⟨s4, h1, by rw [h2]; exact ahead_promote_all_of_le _ _ a b hab hn⟩

theorem tick_order_of_lt (env : Env) (s3 : State) (a b : vtimer_t)
    (ha : a ∈ promoted s3) (hb : b ∈ promoted s3)
    (hn : a.absolute.nanoseconds < b.absolute.nanoseconds) :
    ∃ s4, vtimer_tick env s3 = some s4 ∧
      Ahead (shortterm_entry a a.absolute) (shortterm_entry b b.absolute)
        s4.shortterm_queue_root := by
  obtain ⟨s4, h1, h2⟩ := vtimer_tick_promotes env s3
  exact ⟨s4, h1, by rw [h2]; exact ahead_promote_all_of_lt _ _ a b ha hb hn⟩

theorem vtimer_set_trace (env : Env) (s : State) (timer : vtimer_t) :
    ∃ added, (vtimer_set_state env s timer).trace = s.trace ++ added := by
  by_cases h : (vtimer_set_normalized env s timer).seconds = s.seconds
  · obtain ⟨s', h1, _, _, _, _, _, _, added, h9⟩ := vtimer_set_shortterm_eq env s timer h
    exact ⟨added, by simp [vtimer_set_state, h1, h9]⟩
  · exact ⟨[Event.hwtimer_now (env.hwtimer_now s.trace % U32), Event.disableIRQ,
      Event.restoreIRQ], by simp [vtimer_set_state, vtimer_set_longterm_eq env s timer h]⟩

theorem vtimer_set_state_sublist (env : Env) (s : State) (timer : vtimer_t) :
    List.Sublist s.shortterm_queue_root (vtimer_set_state env s timer).shortterm_queue_root := by
  by_cases h : (vtimer_set_normalized env s timer).seconds = s.seconds
  · rw [(vtimer_set_state_shortterm env s timer h).1]
    exact queue_priority_add_sublist _ _
  · rw [(vtimer_set_state_longterm env s timer h).2.1]

theorem run_op_set_eq (env : Env) (s : State) (timer : vtimer_t) :
    run_op env s (Op.set timer) = some (vtimer_set_state env s timer) := by
  simp [run_op, vtimer_set_state_eq]

theorem vtimer_callback_trace (env : Env) (s s' : State) (h : vtimer_callback env s = some s') :
    ∃ added, s'.trace = s.trace ++ added := by
  cases hq : s.shortterm_queue_root with
  | nil => simp [vtimer_callback, hq, queue_remove_head] at h
  | cons t rest =>
    obtain ⟨tr, k⟩ := (vtimer_callback_spec env s s' t rest hq h).1
    exact ⟨_, k⟩

theorem run_ops_trace (env : Env) (ops : List Op) (s s' : State)
    (hr : run_ops env ops s = some s') : ∃ added, s'.trace = s.trace ++ added := by
  induction ops generalizing s with
  | nil =>
    simp only [run_ops, Option.some.injEq] at hr
    exact ⟨[], by rw [hr]; simp⟩
  | cons op ops ih =>
    cases op with
    | set timer =>
      simp only [run_ops, run_op_set_eq] at hr
      obtain ⟨x, hx⟩ := vtimer_set_trace env s timer
      obtain ⟨y, hy⟩ := ih _ hr
      exact ⟨x ++ y, by rw [hy, hx]; simp⟩
    | fire =>
      simp only [run_ops, run_op] at hr
      cases hcb : vtimer_callback env s with
      | none => simp [hcb] at hr
      | some s1 =>
        simp only [hcb] at hr
        obtain ⟨x, hx⟩ := vtimer_callback_trace env s s1 hcb
        obtain ⟨y, hy⟩ := ih _ hr
        exact ⟨x ++ y, by rw [hy, hx]; simp⟩

theorem ahead_until_fired (env : Env) (ops : List Op) (s s' : State) (a b : vtimer_t)
    (hab : Ahead a b s.shortterm_queue_root) (hr : run_ops env ops s = some s') :
    ∃ added, s'.trace = s.trace ++ added ∧
      (Event.fire a.addr ∈ added ∨ Ahead a b s'.shortterm_queue_root) := by
  induction ops generalizing s with
  | nil =>
    simp only [run_ops, Option.some.injEq] at hr
    subst hr
    exact ⟨[], by simp, Or.inr hab⟩
  | cons op ops ih =>
    cases op with
    | set timer =>
      simp only [run_ops, run_op_set_eq] at hr
      obtain ⟨add1, h1⟩ := vtimer_set_trace env s timer
      obtain ⟨add2, h2, h3⟩ := ih (vtimer_set_state env s timer)
        (List.Sublist.trans hab (vtimer_set_state_sublist env s timer)) hr
      refine ⟨add1 ++ add2, by rw [h2, h1]; simp, ?_⟩
      rcases h3 with h3 | h3
      · exact Or.inl (List.mem_append_right _ h3)
      · exact Or.inr h3
    | fire =>
      simp only [run_ops, run_op] at hr
      cases hcb : vtimer_callback env s with
      | none => simp [hcb] at hr
      | some s1 =>
        simp only [hcb] at hr
        cases hq : s.shortterm_queue_root with
        | nil => rw [hq] at hab; exact absurd hab (by simp [Ahead])
        | cons t rest =>
          obtain ⟨tr, h1⟩ := (vtimer_callback_spec env s s1 t rest hq hcb).1
          rcases vtimer_callback_ahead env s s1 a b hab hcb with hh | hh
          · obtain ⟨add2, h2⟩ := run_ops_trace env ops s1 s' hr
            rw [hq] at hh
            simp only [List.head?_cons, Option.some.injEq] at hh
            refine ⟨Event.fire t.addr :: tr ++ add2, by rw [h2, h1]; simp, Or.inl ?_⟩
            rw [hh]
            simp
          · obtain ⟨add2, h2, h3⟩ := ih s1 hh hr
            refine ⟨Event.fire t.addr :: tr ++ add2, by rw [h2, h1]; simp, ?_⟩
            rcases h3 with h3 | h3
            · exact Or.inl (by simp [h3])
            · exact Or.inr h3

/-! ## Properties of the specification -/

/-- Claim C6: `normalize_to_tick` is idempotent. Applying it twice to any pair
(seconds, nanoseconds) gives exactly the pair one application gives. -/
theorem normalize_to_tick_idempotent (t : timex_t) :
    normalize_to_tick (normalize_to_tick t) = normalize_to_tick t :=
  normalize_idem t

/-- Claim C7: for every 32-bit input `(S, n)` the result `(S', n')` of
`normalize_to_tick` has `S'` a multiple of the epoch length 4096; the value
`S' * 1000000 + n'` equals `S * 1000000 + n` as a natural number whenever
`S + 8192 < 2^32`, and is congruent to it modulo `2^32 * 1000000` in every case. -/
theorem normalize_to_tick_preserves_time (S n : Nat) (hS : S < 4294967296)
    (hn : n < 4294967296) :
    (normalize_to_tick ⟨S, n⟩).seconds % SECONDS_PER_TICK = 0 ∧
    (S + 8192 < 4294967296 →
      (normalize_to_tick ⟨S, n⟩).seconds * 1000000 + (normalize_to_tick ⟨S, n⟩).nanoseconds
        = S * 1000000 + n) ∧
    ((normalize_to_tick ⟨S, n⟩).seconds * 1000000 + (normalize_to_tick ⟨S, n⟩).nanoseconds)
        % (4294967296 * 1000000) = (S * 1000000 + n) % (4294967296 * 1000000) :=
  ⟨(normalize_seconds_nanoseconds ⟨S, n⟩).1, normalize_value S n hS hn⟩

/-- A run of claim C7 with a carry: 5000 seconds and 4000000000 nanoseconds
become 8192 seconds and 808000000 nanoseconds. -/
theorem normalize_to_tick_preserves_time_witness :
    (normalize_to_tick ⟨5000, 4000000000⟩).seconds % SECONDS_PER_TICK = 0 ∧
    (5000 + 8192 < 4294967296 →
      (normalize_to_tick ⟨5000, 4000000000⟩).seconds * 1000000
        + (normalize_to_tick ⟨5000, 4000000000⟩).nanoseconds
        = 5000 * 1000000 + 4000000000) ∧
    ((normalize_to_tick ⟨5000, 4000000000⟩).seconds * 1000000
        + (normalize_to_tick ⟨5000, 4000000000⟩).nanoseconds)
        % (4294967296 * 1000000) = (5000 * 1000000 + 4000000000) % (4294967296 * 1000000) :=
  normalize_to_tick_preserves_time 5000 4000000000 (by decide) (by decide)

/-- Claim C8, as stated, fails: the input (0, 4096000000) is returned unchanged,
so the nanoseconds field equals `NANOSECONDS_PER_TICK` and is not strictly below
it (line 124 tests `>`). -/
theorem normalize_to_tick_full_epoch_kept :
    normalize_to_tick ⟨0, 4096000000⟩ = ⟨0, 4096000000⟩ ∧
    ¬ ((normalize_to_tick ⟨0, 4096000000⟩).nanoseconds < NANOSECONDS_PER_TICK) := by
  decide

/-- Claim C8, amended: after `normalize_to_tick` the nanoseconds field is at
most one epoch's worth of nanoseconds, `NANOSECONDS_PER_TICK = 4096000000`. -/
theorem normalize_to_tick_nanoseconds_le (t : timex_t) :
    (normalize_to_tick t).nanoseconds ≤ NANOSECONDS_PER_TICK ∧
    NANOSECONDS_PER_TICK = 4096000000 :=
  ⟨(normalize_seconds_nanoseconds t).2.1, rfl⟩

/-- Claim C2: `vtimer_set` places the timer in exactly one queue. If the epoch
of the normalised deadline differs from the epoch counter `seconds`, the timer
goes into the long-term queue keyed by `absolute.seconds`, and nothing else
changes: the short-term queue, `hwtimer_id` and `hwtimer_next_absolute` are as
before and between `disableIRQ` and `restoreIRQ` no driver call is made (the
only driver call is the counter read of `vtimer_now`, before interrupts are
disabled). Otherwise the timer goes into the short-term queue keyed by
`absolute.nanoseconds` and the long-term queue is unchanged. -/
theorem vtimer_set_queue_choice (env : Env) (s : State) (timer : vtimer_t) :
    ((vtimer_set_normalized env s timer).seconds ≠ s.seconds →
      vtimer_set env s timer = some
        ({ s with
            longterm_queue_root := queue_priority_add s.longterm_queue_root
              (longterm_entry timer (vtimer_set_deadline env s timer)),
            trace := s.trace ++ [Event.hwtimer_now (env.hwtimer_now s.trace % U32),
              Event.disableIRQ, Event.restoreIRQ] }, 0)) ∧
    ((vtimer_set_normalized env s timer).seconds = s.seconds →
      ∃ s', vtimer_set env s timer = some (s', 0) ∧
        s'.shortterm_queue_root = queue_priority_add s.shortterm_queue_root
          (shortterm_entry timer (vtimer_set_deadline env s timer)) ∧
        s'.longterm_queue_root = s.longterm_queue_root) := by
  refine ⟨vtimer_set_longterm_eq env s timer, fun h => ?_⟩
  obtain ⟨s', h1, h2, h3, _⟩ := vtimer_set_shortterm_eq env s timer h
  exact ⟨s', h1, h2, h3⟩

/-- A run of claim C2 from the boot state with the counter at 0: an interval of
5000 seconds lands in epoch 4096 and is queued long-term without touching the
hardware; an interval of 100 nanoseconds is queued short-term. -/
theorem vtimer_set_queue_choice_witness :
    vtimer_set (fixed_env 0 1) boot { blank_timer 1 with absolute := ⟨5000, 0⟩ } = some
      ({ boot with
          longterm_queue_root := queue_priority_add boot.longterm_queue_root
            (longterm_entry { blank_timer 1 with absolute := ⟨5000, 0⟩ }
              (vtimer_set_deadline (fixed_env 0 1) boot
                { blank_timer 1 with absolute := ⟨5000, 0⟩ })),
          trace := boot.trace ++ [Event.hwtimer_now ((fixed_env 0 1).hwtimer_now boot.trace % U32),
            Event.disableIRQ, Event.restoreIRQ] }, 0) ∧
    ∃ s', vtimer_set (fixed_env 0 1) boot { blank_timer 2 with absolute := ⟨0, 100⟩ }
        = some (s', 0) ∧
      s'.shortterm_queue_root = queue_priority_add boot.shortterm_queue_root
        (shortterm_entry { blank_timer 2 with absolute := ⟨0, 100⟩ }
          (vtimer_set_deadline (fixed_env 0 1) boot
            { blank_timer 2 with absolute := ⟨0, 100⟩ })) ∧
      s'.longterm_queue_root = boot.longterm_queue_root :=
  ⟨(vtimer_set_queue_choice (fixed_env 0 1) boot { blank_timer 1 with absolute := ⟨5000, 0⟩ }).1
      (by decide),
   (vtimer_set_queue_choice (fixed_env 0 1) boot { blank_timer 2 with absolute := ⟨0, 100⟩ }).2
      (by decide)⟩

/-- Claim C3: `vtimer_now` returns the epoch counter and the counter reading
minus the tick anchor modulo `2^32`; across one `vtimer_tick` the epoch
component grows by exactly 4096 modulo `2^32`, the tick anchor becomes the
value the handler stored (the deadline the epoch-wrap timer had), and the
nanosecond component is again the reading minus the new anchor modulo `2^32`. -/
theorem vtimer_now_across_epoch_wrap (env : Env) (s : State) :
    (vtimer_now env s).1 =
      { seconds := s.seconds,
        nanoseconds := (env.hwtimer_now s.trace % 4294967296 + 4294967296
          - s.longterm_tick_start) % 4294967296 } ∧
    ∃ s', vtimer_tick env s = some s' ∧
      s'.longterm_tick_start = s.longterm_tick_timer.absolute.nanoseconds ∧
      (vtimer_now env s').1.seconds = ((vtimer_now env s).1.seconds + 4096) % 4294967296 ∧
      (vtimer_now env s').1.nanoseconds =
        (env.hwtimer_now s'.trace % 4294967296 + 4294967296 - s'.longterm_tick_start)
          % 4294967296 := by
  refine ⟨rfl, ?_⟩
  obtain ⟨s', h1, h2, h3, _⟩ := vtimer_tick_spec env s
  refine ⟨s', h1, h3, ?_, rfl⟩
  show s'.seconds = _
  rw [h2]
  rfl

/-- Claim C5: `update_shortterm` is idempotent. From a state with a non-empty
short-term queue in which the first call leaves a valid arming id (not -1), the
first call adds at most one `hwtimer_set_absolute` to the trace, after it the
cached deadline equals the priority of the queue head, and a second call
returns the very same state: no cancel, no arm, recorded id and cached
deadline unchanged. -/
theorem update_shortterm_idempotent (env : Env) (s : State)
    (hq : s.shortterm_queue_root ≠ [])
    (hid : ∀ s1, update_shortterm env s = some (s1, 0) → s1.hwtimer_id ≠ -1) :
    ∃ s1 added head rest,
      update_shortterm env s = some (s1, 0) ∧
      s1.trace = s.trace ++ added ∧ arm_count added ≤ 1 ∧
      s1.shortterm_queue_root = head :: rest ∧ s1.hwtimer_next_absolute = head.priority ∧
      update_shortterm env s1 = some (s1, 0) :=
  update_shortterm_idem env s hq hid

/-- A run of claim C5: with one timer queued and nothing armed, the first
`update_shortterm` arms the hardware once and the second changes nothing. -/
theorem update_shortterm_idempotent_witness :
    ∃ s1 added head rest,
      update_shortterm (fixed_env 0 1)
        { boot with shortterm_queue_root := [shortterm_entry (blank_timer 1) ⟨0, 500⟩] }
        = some (s1, 0) ∧
      s1.trace = ({ boot with
        shortterm_queue_root := [shortterm_entry (blank_timer 1) ⟨0, 500⟩] } : State).trace
          ++ added ∧
      arm_count added ≤ 1 ∧
      s1.shortterm_queue_root = head :: rest ∧ s1.hwtimer_next_absolute = head.priority ∧
      update_shortterm (fixed_env 0 1) s1 = some (s1, 0) :=
  update_shortterm_idempotent (fixed_env 0 1)
    { boot with shortterm_queue_root := [shortterm_entry (blank_timer 1) ⟨0, 500⟩] }
    (by decide)
    (by
      intro s1 h
      simp only [update_shortterm, update_shortterm_arm, hwtimer_now, State.log, fixed_env, boot,
        Option.some.injEq, Prod.mk.injEq] at h
      simp only [ne_eq, not_true_eq_false, if_false, and_true, Option.some.injEq,
        Prod.mk.injEq] at h
      rw [← h]
      decide)

/-- Claim C10, as stated, fails: with a driver whose `hwtimer_set_absolute`
returns -1, `vtimer_set_cb` called outside the dispatcher (`in_callback` false)
for a deadline in the current epoch arms the hardware, records the id -1 and
returns status 0. -/
theorem driver_exhaustion_not_reported :
    (vtimer_set_normalized (fixed_env 0 (-1)) boot
      { blank_timer 1 with action := action_t.user 7, arg := 0, absolute := ⟨0, 100⟩ }).seconds
        = boot.seconds ∧
    boot.in_callback = false ∧
    vtimer_set_cb (fixed_env 0 (-1)) boot (blank_timer 1) ⟨0, 100⟩ (action_t.user 7) 0 = some
      ({ boot with
          shortterm_queue_root :=
            [{ addr := 1, priority := 90, absolute := ⟨0, 90⟩, action := action_t.user 7,
               arg := 0 }],
          hwtimer_id := -1,
          hwtimer_next_absolute := 90,
          trace := [Event.hwtimer_now 0, Event.disableIRQ, Event.hwtimer_now 0,
            Event.hwtimer_set_absolute 90 (-1), Event.restoreIRQ] }, 0) := by
  decide

/-- Claim C10, amended: `vtimer_set` and `vtimer_set_cb` always return, and the
status they return is 0 in every case, whatever id the driver's
`hwtimer_set_absolute` returned (-1 included). -/
theorem vtimer_set_status_zero (env : Env) (s : State) (t : vtimer_t) (interval : timex_t)
    (f_ptr : action_t) (ptr : Nat) :
    (∃ s', vtimer_set env s t = some (s', 0)) ∧
    (∃ s', vtimer_set_cb env s t interval f_ptr ptr = some (s', 0)) :=
  ⟨vtimer_set_total env s t, vtimer_set_total env s _⟩

/-- Claim C4: a dispatcher run that fires a user timer whose action makes `k`
arming calls (`k ≥ 0`) invokes `hwtimer_set_absolute` exactly once, as the last
call of the run, after the action has returned; the `3 * k` calls the inner
`vtimer_set`s make are neither a cancel nor an arm; and `in_callback` is false
again when the dispatcher returns. The short-term queue must not be empty when
the action has returned: another timer is queued behind the fired one (in the
running system the epoch-wrap timer always is), or the action's first arming
call lands in the current epoch. -/
theorem dispatcher_rearms_once (env : Env) (s : State) (timer : vtimer_t)
    (rest : List vtimer_t) (f : Nat)
    (hq : s.shortterm_queue_root = timer :: rest) (hf : timer.action = action_t.user f)
    (hne : rest ≠ [] ∨
      ∃ c cs, env.user_action f timer.arg (firing_state s timer rest).trace = c :: cs ∧
        (vtimer_set_normalized env (firing_state s timer rest) c.timer).seconds = s.seconds) :
    ∃ s' inner now next id,
      vtimer_callback env s = some s' ∧
      s'.trace = s.trace ++ Event.fire timer.addr ::
        (inner ++ [Event.hwtimer_now now, Event.hwtimer_set_absolute next id]) ∧
      inner.length = 3 * (env.user_action f timer.arg (firing_state s timer rest).trace).length ∧
      (∀ e ∈ inner, e.is_arm = false ∧ e.is_cancel = false) ∧
      arm_count (Event.fire timer.addr ::
        (inner ++ [Event.hwtimer_now now, Event.hwtimer_set_absolute next id])) = 1 ∧
      s'.in_callback = false :=
  vtimer_callback_user_spec env s timer rest f hq hf hne

/-- A run of claim C4: a user timer queued in front of the epoch-wrap timer
fires and its callback re-arms two timers; the hardware is armed once, last. -/
theorem dispatcher_rearms_once_witness :
    ∃ s' inner now next id,
      vtimer_callback rearming_env
        { boot with
          shortterm_queue_root :=
            [shortterm_entry { blank_timer 1 with action := action_t.user 7 } ⟨0, 100⟩,
             shortterm_entry boot.longterm_tick_timer ⟨0, 4096000000⟩],
          hwtimer_id := 1, hwtimer_next_absolute := 100 } = some s' ∧
      s'.trace = boot.trace ++ Event.fire 1 ::
        (inner ++ [Event.hwtimer_now now, Event.hwtimer_set_absolute next id]) ∧
      inner.length = 3 * 2 ∧
      (∀ e ∈ inner, e.is_arm = false ∧ e.is_cancel = false) ∧
      arm_count (Event.fire 1 ::
        (inner ++ [Event.hwtimer_now now, Event.hwtimer_set_absolute next id])) = 1 ∧
      s'.in_callback = false :=
  dispatcher_rearms_once rearming_env
    { boot with
      shortterm_queue_root :=
        [shortterm_entry { blank_timer 1 with action := action_t.user 7 } ⟨0, 100⟩,
         shortterm_entry boot.longterm_tick_timer ⟨0, 4096000000⟩],
      hwtimer_id := 1, hwtimer_next_absolute := 100 }
    (shortterm_entry { blank_timer 1 with action := action_t.user 7 } ⟨0, 100⟩)
    [shortterm_entry boot.longterm_tick_timer ⟨0, 4096000000⟩] 7 rfl rfl (Or.inl (by decide))

theorem guard_condition_int (d a h : Nat) (hh : h < 4294967296) :
    ((sub32 (sub32 (add32 d a) VTIMER_THRESHOLD) h : Nat) : Int)
      = ((d : Int) + a - 20 - h) % 4294967296 := by
  simp only [add32, sub32, U32, VTIMER_THRESHOLD]
  omega

theorem armed_value_eq (d a h : Nat) (hh : h < 4294967296) :
    armed_value d a h =
      if ((d : Int) + a - 20 - h) % 4294967296 > 4096000000 then (h + 10) % 4294967296
      else (d + a) % 4294967296 := by
  have hg := guard_condition_int d a h hh
  have he : (sub32 (sub32 (add32 d a) VTIMER_THRESHOLD) h > NANOSECONDS_PER_TICK)
      ↔ (((d : Int) + a - 20 - h) % 4294967296 > 4096000000) := by
    rw [← hg]
    simp only [NANOSECONDS_PER_TICK]
    omega
  unfold armed_value
  by_cases hc : sub32 (sub32 (add32 d a) VTIMER_THRESHOLD) h > NANOSECONDS_PER_TICK
  · rw [if_pos hc, if_pos (he.1 hc)]
    simp [add32, U32, VTIMER_BACKOFF]
  · rw [if_neg hc, if_neg (fun h' => hc (he.2 h'))]
    simp [add32, U32]

theorem armed_value_ahead (d a h : Nat) (hh : h < 4294967296) :
    ((armed_value d a h : Int) - h) % 4294967296 ≤ 4096000000 + 20 ∧
    (((d : Int) + a - 20 - h) % 4294967296 > 4096000000 →
      ((armed_value d a h : Int) - h) % 4294967296 = 10) := by
  rw [armed_value_eq d a h hh]
  by_cases hc : ((d : Int) + a - 20 - h) % 4294967296 > 4096000000
  · rw [if_pos hc]
    constructor
    · omega
    · intro _; omega
  · rw [if_neg hc]
    constructor
    · omega
    · intro h'; exact absurd h' hc

theorem rearm_reading_lt (env : Env) (s : State) : rearm_reading env s < 4294967296 :=
  Nat.mod_lt _ (by decide)

theorem update_shortterm_arming (env : Env) (s : State) (head : vtimer_t)
    (rest : List vtimer_t) (hq : s.shortterm_queue_root = head :: rest)
    (harm : s.hwtimer_id = -1 ∨ s.hwtimer_next_absolute ≠ head.priority) :
    update_shortterm env s = some
      ({ s with
          hwtimer_next_absolute := head.priority,
          hwtimer_id := env.hwtimer_set_absolute
            (s.trace ++ rearm_prelude s ++ [Event.hwtimer_now (rearm_reading env s)])
            (armed_value head.priority s.longterm_tick_start (rearm_reading env s)),
          trace := s.trace ++ rearm_prelude s ++
            [Event.hwtimer_now (rearm_reading env s),
             Event.hwtimer_set_absolute
              (armed_value head.priority s.longterm_tick_start (rearm_reading env s))
              (env.hwtimer_set_absolute
                (s.trace ++ rearm_prelude s ++ [Event.hwtimer_now (rearm_reading env s)])
                (armed_value head.priority s.longterm_tick_start (rearm_reading env s)))] },
       0) := by
  by_cases h1 : s.hwtimer_id = -1
  · simp [update_shortterm, hq, h1, update_shortterm_arm_eq, rearm_prelude, rearm_reading]
  · have h2 : s.hwtimer_next_absolute ≠ head.priority := by
      rcases harm with h | h
      · exact absurd h h1
      · exact h
    simp [update_shortterm, hq, h1, h2, update_shortterm_arm_eq, rearm_prelude, rearm_reading,
      State.log]

/-- Claim C13: whenever `update_shortterm` arms the hardware (no arming is
recorded, or the cached deadline differs from the head's), with `d` the
priority of the short-term head, `a` the tick anchor and `h` the counter value
read at line 58, the value passed to `hwtimer_set_absolute` is `(h + 10) mod
2^32` if `(d + a - 20 - h) mod 2^32 > 4096000000` and `(d + a) mod 2^32`
otherwise; the cached deadline recorded is `d` in both cases. -/
theorem rearm_forward_progress_guard (env : Env) (s : State) (head : vtimer_t)
    (rest : List vtimer_t) (hq : s.shortterm_queue_root = head :: rest)
    (harm : s.hwtimer_id = -1 ∨ s.hwtimer_next_absolute ≠ head.priority) :
    ∃ s' id,
      update_shortterm env s = some (s', 0) ∧
      s'.trace = s.trace ++ rearm_prelude s ++
        [Event.hwtimer_now (rearm_reading env s),
         Event.hwtimer_set_absolute
          (if ((head.priority : Int) + s.longterm_tick_start - 20 - rearm_reading env s)
                % 4294967296 > 4096000000
            then (rearm_reading env s + 10) % 4294967296
            else (head.priority + s.longterm_tick_start) % 4294967296) id] ∧
      s'.hwtimer_next_absolute = head.priority ∧ s'.hwtimer_id = id := by
  refine ⟨_, _, update_shortterm_arming env s head rest hq harm, ?_, rfl, rfl⟩
  simp only [armed_value_eq _ _ _ (rearm_reading_lt env s)]

/-- Two runs of claim C13 with nothing armed, anchor 0 and the counter at 1000:
a head deadline of 500 lies in the past and is armed at 1010 (backoff); a head
deadline of 5000 is armed at 5000. -/
theorem rearm_forward_progress_guard_witness :
    (∃ s' id,
      update_shortterm (fixed_env 1000 1)
        { boot with shortterm_queue_root := [shortterm_entry (blank_timer 1) ⟨0, 500⟩] }
        = some (s', 0) ∧
      s'.trace = [Event.hwtimer_now 1000, Event.hwtimer_set_absolute 1010 id] ∧
      s'.hwtimer_next_absolute = 500 ∧ s'.hwtimer_id = id) ∧
    (∃ s' id,
      update_shortterm (fixed_env 1000 1)
        { boot with shortterm_queue_root := [shortterm_entry (blank_timer 1) ⟨0, 5000⟩] }
        = some (s', 0) ∧
      s'.trace = [Event.hwtimer_now 1000, Event.hwtimer_set_absolute 5000 id] ∧
      s'.hwtimer_next_absolute = 5000 ∧ s'.hwtimer_id = id) :=
  ⟨rearm_forward_progress_guard (fixed_env 1000 1)
      { boot with shortterm_queue_root := [shortterm_entry (blank_timer 1) ⟨0, 500⟩] }
      (shortterm_entry (blank_timer 1) ⟨0, 500⟩) [] rfl (Or.inl rfl),
   rearm_forward_progress_guard (fixed_env 1000 1)
      { boot with shortterm_queue_root := [shortterm_entry (blank_timer 1) ⟨0, 5000⟩] }
      (shortterm_entry (blank_timer 1) ⟨0, 5000⟩) [] rfl (Or.inl rfl)⟩

/-- Claim C20: whenever `update_shortterm` arms the hardware, the value `t`
passed to `hwtimer_set_absolute` and the counter value `h` read just before
satisfy `(t - h) mod 2^32 ≤ 4096000000 + 20`, for every head deadline, tick
anchor and reading; in the backoff case, `(d + a - 20 - h) mod 2^32 >
4096000000`, the distance `(t - h) mod 2^32` is exactly 10. -/
theorem rearm_distance_bound (env : Env) (s : State) (head : vtimer_t)
    (rest : List vtimer_t) (hq : s.shortterm_queue_root = head :: rest)
    (harm : s.hwtimer_id = -1 ∨ s.hwtimer_next_absolute ≠ head.priority) :
    ∃ s' t id,
      update_shortterm env s = some (s', 0) ∧
      s'.trace = s.trace ++ rearm_prelude s ++
        [Event.hwtimer_now (rearm_reading env s), Event.hwtimer_set_absolute t id] ∧
      ((t : Int) - rearm_reading env s) % 4294967296 ≤ 4096000000 + 20 ∧
      (((head.priority : Int) + s.longterm_tick_start - 20 - rearm_reading env s)
          % 4294967296 > 4096000000 →
        ((t : Int) - rearm_reading env s) % 4294967296 = 10) :=
  ⟨_, _, _, update_shortterm_arming env s head rest hq harm, rfl,
    armed_value_ahead _ _ _ (rearm_reading_lt env s)⟩

/-- A run of claim C20 with an arming recorded for another deadline, anchor 0
and the counter at 1000: the head deadline 500 is re-armed at distance 10. -/
theorem rearm_distance_bound_witness :
    ∃ s' t id,
      update_shortterm (fixed_env 1000 1)
        { boot with shortterm_queue_root := [shortterm_entry (blank_timer 1) ⟨0, 500⟩],
                    hwtimer_id := 3, hwtimer_next_absolute := 700 }
        = some (s', 0) ∧
      s'.trace = [Event.hwtimer_remove 3, Event.hwtimer_now 1000,
        Event.hwtimer_set_absolute t id] ∧
      ((t : Int) - 1000) % 4294967296 ≤ 4096000000 + 20 ∧
      (((500 : Int) + 0 - 20 - 1000) % 4294967296 > 4096000000 →
        ((t : Int) - 1000) % 4294967296 = 10) :=
  rearm_distance_bound (fixed_env 1000 1)
    { boot with shortterm_queue_root := [shortterm_entry (blank_timer 1) ⟨0, 500⟩],
                hwtimer_id := 3, hwtimer_next_absolute := 700 }
    (shortterm_entry (blank_timer 1) ⟨0, 500⟩) [] rfl (Or.inr (by decide))

/-! ## Carry corrections of the normalisation -/

theorem normalize_branches (q r n : Nat) (hr : r < 4096) (_hS : 4096 * q + r < 4294967296)
    (hn : n < 4294967296) :
    (wrap_branch_taken ⟨4096 * q + r, n⟩ = true ↔ 4294967296 ≤ n + r * 1000000) ∧
    (over_branch_taken ⟨4096 * q + r, n⟩ = true ↔
      (n + r * 1000000 < 4294967296 ∧ 4096000000 < n + r * 1000000) ∨
      8192000000 < n + r * 1000000) := by
  have e0 : (4096 * q + r) % 4096 = r := by omega
  have e1 : (r * 1000000) % 4294967296 = r * 1000000 := Nat.mod_eq_of_lt (by omega)
  have hw : wrap_branch_taken ⟨4096 * q + r, n⟩ = true ↔ 4294967296 ≤ n + r * 1000000 := by
    simp only [wrap_branch_taken, add32, mul32, SECONDS_PER_TICK, U32, e0, e1,
      decide_eq_true_eq]
    omega
  refine ⟨hw, ?_⟩
  by_cases hc : 4294967296 ≤ n + r * 1000000
  · have hwt := hw.2 hc
    simp only [over_branch_taken, hwt, if_true, add32, sub32, mul32, SECONDS_PER_TICK,
      NANOSECONDS_PER_TICK, U32, e0, e1, decide_eq_true_eq]
    have e2 : (n + r * 1000000) % 4294967296 = n + r * 1000000 - 4294967296 := by omega
    have e3 : (4096 * 1000000) % 4294967296 = 4096000000 := by norm_num
    rw [e2, e3]
    omega
  · have hwf : wrap_branch_taken ⟨4096 * q + r, n⟩ = false := by
      cases hx : wrap_branch_taken ⟨4096 * q + r, n⟩ with
      | false => rfl
      | true => exact absurd (hw.1 hx) hc
    simp only [over_branch_taken, hwf, Bool.false_eq_true, if_false, add32, mul32,
      SECONDS_PER_TICK, NANOSECONDS_PER_TICK, U32, e0, e1, decide_eq_true_eq]
    have e2 : (n + r * 1000000) % 4294967296 = n + r * 1000000 := Nat.mod_eq_of_lt (by omega)
    have e3 : (4096 * 1000000) % 4294967296 = 4096000000 := by norm_num
    rw [e2, e3]
    omega

theorem normalize_both_branches (S n : Nat) (hS : S < 4294967296) (hn : n < 4294967296) :
    (wrap_branch_taken ⟨S, n⟩ = true ∧ over_branch_taken ⟨S, n⟩ = true) ↔
      8192000000 < n + S % 4096 * 1000000 := by
  obtain ⟨q, r, hr, rfl⟩ : ∃ q r, r < 4096 ∧ S = 4096 * q + r :=
    ⟨S / 4096, S % 4096, Nat.mod_lt _ (by norm_num), (Nat.div_add_mod S 4096).symm⟩
  have e0 : (4096 * q + r) % 4096 = r := by omega
  obtain ⟨h1, h2⟩ := normalize_branches q r n hr hS hn
  rw [h1, h2, e0]
  omega

theorem normalize_seconds_carries (S n : Nat) (hS : S < 4294967296) (hn : n < 4294967296) :
    (normalize_to_tick ⟨S, n⟩).seconds
      = (S - S % 4096 + 4096 * carries_taken ⟨S, n⟩) % 4294967296 := by
  obtain ⟨q, r, hr, rfl⟩ : ∃ q r, r < 4096 ∧ S = 4096 * q + r :=
    ⟨S / 4096, S % 4096, Nat.mod_lt _ (by norm_num), (Nat.div_add_mod S 4096).symm⟩
  have e0 : (4096 * q + r) % 4096 = r := by omega
  obtain ⟨h1, h2⟩ := normalize_branches q r n hr hS hn
  have e4 : 4096 * q + r - r = 4096 * q := by omega
  have hq : 4096 * q < 4294967296 := by omega
  rw [e0, e4]
  unfold carries_taken
  rcases normalize_cases q r n hr hS hn with ⟨k1, k⟩ | ⟨k1, k2, k⟩ | ⟨k1, k⟩
  · rw [k]
    have w : wrap_branch_taken ⟨4096 * q + r, n⟩ = false := by
      rw [← Bool.not_eq_true, h1]; omega
    have o : over_branch_taken ⟨4096 * q + r, n⟩ = false := by
      rw [← Bool.not_eq_true, h2]; omega
    rw [w, o]
    simp only [Bool.false_eq_true, if_false, Nat.add_zero, Nat.mul_zero]
    exact (Nat.mod_eq_of_lt hq).symm
  · rw [k]
    by_cases hc : 4294967296 ≤ n + r * 1000000
    · have w : wrap_branch_taken ⟨4096 * q + r, n⟩ = true := h1.2 hc
      have o : over_branch_taken ⟨4096 * q + r, n⟩ = false := by
        rw [← Bool.not_eq_true, h2]; omega
      rw [w, o]
      simp only [Bool.false_eq_true, if_false, if_true, Nat.add_zero, Nat.mul_one]
    · have w : wrap_branch_taken ⟨4096 * q + r, n⟩ = false := by
        rw [← Bool.not_eq_true, h1]; omega
      have o : over_branch_taken ⟨4096 * q + r, n⟩ = true := h2.2 (Or.inl ⟨by omega, k1⟩)
      rw [w, o]
      simp only [Bool.false_eq_true, if_false, if_true, Nat.zero_add, Nat.mul_one]
  · rw [k]
    have w : wrap_branch_taken ⟨4096 * q + r, n⟩ = true := h1.2 (by omega)
    have o : over_branch_taken ⟨4096 * q + r, n⟩ = true := h2.2 (Or.inr k1)
    rw [w, o]
    simp only [if_true]

/-- Claim C19, as stated, fails: for seconds 4095 and nanoseconds 2^32 - 1 the
sum wraps (first correction) and the corrected value 4293967295 still exceeds
`NANOSECONDS_PER_TICK` (second correction); seconds goes from the rounded-down
value 0 to 8192. -/
theorem normalize_to_tick_both_corrections :
    wrap_branch_taken ⟨4095, 4294967295⟩ = true ∧
    over_branch_taken ⟨4095, 4294967295⟩ = true ∧
    normalize_to_tick ⟨4095, 4294967295⟩ = ⟨8192, 197967295⟩ := by
  decide

/-- Claim C19, amended: for every 32-bit input (seconds, nanoseconds) of
`normalize_to_tick`, both carry corrections are taken exactly when
`nanoseconds + (seconds mod 4096) * 1000000 > 8192000000`; so at most one is
taken whenever `nanoseconds ≤ 4097000000`. Seconds is advanced by 4096 for each
correction taken, hence by at most two epochs (8192) beyond its rounded-down
value. -/
theorem normalize_to_tick_corrections (S n : Nat) (hS : S < 4294967296)
    (hn : n < 4294967296) :
    ((wrap_branch_taken ⟨S, n⟩ = true ∧ over_branch_taken ⟨S, n⟩ = true) ↔
      8192000000 < n + S % 4096 * 1000000) ∧
    (n ≤ 4097000000 →
      ¬ (wrap_branch_taken ⟨S, n⟩ = true ∧ over_branch_taken ⟨S, n⟩ = true)) ∧
    carries_taken ⟨S, n⟩ ≤ 2 ∧
    (normalize_to_tick ⟨S, n⟩).seconds
      = (S - S % 4096 + SECONDS_PER_TICK * carries_taken ⟨S, n⟩) % 4294967296 := by
  have hb := normalize_both_branches S n hS hn
  refine ⟨hb, ?_, ?_, normalize_seconds_carries S n hS hn⟩
  · intro hle
    rw [hb]
    have : S % 4096 < 4096 := Nat.mod_lt _ (by norm_num)
    omega
  · unfold carries_taken
    split_ifs <;> omega

/-- A run of the amended claim C19: 5000 seconds and 4000000000 nanoseconds take
one correction only. -/
theorem normalize_to_tick_corrections_witness :
    ((wrap_branch_taken ⟨5000, 4000000000⟩ = true ∧
        over_branch_taken ⟨5000, 4000000000⟩ = true) ↔
      8192000000 < 4000000000 + 5000 % 4096 * 1000000) ∧
    ¬ (wrap_branch_taken ⟨5000, 4000000000⟩ = true ∧
        over_branch_taken ⟨5000, 4000000000⟩ = true) ∧
    carries_taken ⟨5000, 4000000000⟩ ≤ 2 ∧
    (normalize_to_tick ⟨5000, 4000000000⟩).seconds
      = (5000 - 5000 % 4096 + SECONDS_PER_TICK * carries_taken ⟨5000, 4000000000⟩)
          % 4294967296 :=
  ⟨(normalize_to_tick_corrections 5000 4000000000 (by decide) (by decide)).1,
   (normalize_to_tick_corrections 5000 4000000000 (by decide) (by decide)).2.1 (by decide),
   (normalize_to_tick_corrections 5000 4000000000 (by decide) (by decide)).2.2⟩

/-! ## The epoch-zero nudge -/

theorem vtimer_set_nudge_changes (d : timex_t) :
    vtimer_set_nudge d ≠ d ↔ (d.seconds = 0 ∧ 10 < d.nanoseconds) := by
  cases d with
  | mk e n =>
    unfold vtimer_set_nudge
    simp only
    split_ifs with h1 h2
    · simp only [ne_eq, timex_t.mk.injEq, true_and]
      constructor
      · intro _; exact ⟨h1, h2⟩
      · intro _; omega
    · simp only [ne_eq, not_true_eq_false, false_iff]
      intro h; exact h2 h.2
    · simp only [ne_eq, not_true_eq_false, false_iff]
      intro h; exact h1 h.1

theorem vtimer_set_nudge_value (d : timex_t) (h0 : d.seconds = 0) (h1 : 10 < d.nanoseconds) :
    vtimer_set_nudge d = ⟨0, d.nanoseconds - 10⟩ := by
  cases d with
  | mk e n =>
    simp only at h0 h1
    subst h0
    simp [vtimer_set_nudge, h1]

theorem vtimer_set_nudge_bounds (d : timex_t) :
    (vtimer_set_nudge d).nanoseconds ≤ d.nanoseconds ∧
    d.nanoseconds ≤ (vtimer_set_nudge d).nanoseconds + 10 := by
  unfold vtimer_set_nudge
  split_ifs <;> (try simp only) <;> omega

theorem vtimer_set_queues_deadline (env : Env) (s : State) (timer : vtimer_t) :
    vtimer_set env s timer = some (vtimer_set_state env s timer, 0) ∧
    (((vtimer_set_normalized env s timer).seconds = s.seconds ∧
        (vtimer_set_state env s timer).shortterm_queue_root
          = queue_priority_add s.shortterm_queue_root
              (shortterm_entry timer (vtimer_set_deadline env s timer))) ∨
      ((vtimer_set_normalized env s timer).seconds ≠ s.seconds ∧
        (vtimer_set_state env s timer).longterm_queue_root
          = queue_priority_add s.longterm_queue_root
              (longterm_entry timer (vtimer_set_deadline env s timer)))) := by
  refine ⟨vtimer_set_state_eq env s timer, ?_⟩
  by_cases h : (vtimer_set_normalized env s timer).seconds = s.seconds
  · exact Or.inl ⟨h, (vtimer_set_state_shortterm env s timer h).1⟩
  · exact Or.inr ⟨h, (vtimer_set_state_longterm env s timer h).1⟩

/-- Claim C17: for every timer whose normalised deadline has epoch 0 and
nanosecond value `n` (any `n`, 0 and near-zero values included), the value
`vtimer_set` stores after the nudge is at most `n` and at least `n - 10`, as
integers (no wrap below zero), and the epoch stays 0; when the epoch counter is
0 the call returns with the timer inserted into the short-term queue under
that stored value as its key. -/
theorem epoch_zero_nudge_keeps_timer (env : Env) (s : State) (timer : vtimer_t)
    (h0 : (vtimer_set_normalized env s timer).seconds = 0) :
    (vtimer_set_deadline env s timer).seconds = 0 ∧
    (vtimer_set_deadline env s timer).nanoseconds
      ≤ (vtimer_set_normalized env s timer).nanoseconds ∧
    ((vtimer_set_normalized env s timer).nanoseconds : Int) - 10
      ≤ ((vtimer_set_deadline env s timer).nanoseconds : Int) ∧
    (s.seconds = 0 →
      vtimer_set env s timer = some (vtimer_set_state env s timer, 0) ∧
      (vtimer_set_state env s timer).shortterm_queue_root
        = queue_priority_add s.shortterm_queue_root
            (shortterm_entry timer (vtimer_set_deadline env s timer)) ∧
      (shortterm_entry timer (vtimer_set_deadline env s timer)).priority
        = (vtimer_set_deadline env s timer).nanoseconds) := by
  have hb := vtimer_set_nudge_bounds (vtimer_set_normalized env s timer)
  refine ⟨by rw [vtimer_set_deadline_seconds, h0], hb.1, ?_, fun hs => ?_⟩
  · have := hb.2
    unfold vtimer_set_deadline
    omega
  · exact ⟨vtimer_set_state_eq env s timer,
      (vtimer_set_state_shortterm env s timer (by rw [h0, hs])).1, rfl⟩

/-- A run of claim C17: after `vtimer_init`, counter at 0, a timer armed with
the interval (0, 0) has the normalised deadline (0, 0); it is stored as (0, 0)
and queued at the head of the short-term queue. -/
theorem epoch_zero_nudge_keeps_timer_witness :
    (vtimer_set_deadline (fixed_env 0 1) (initialised (fixed_env 0 1))
      (timer_at 1 ⟨0, 0⟩)).seconds = 0 ∧
    (vtimer_set_deadline (fixed_env 0 1) (initialised (fixed_env 0 1))
      (timer_at 1 ⟨0, 0⟩)).nanoseconds
      ≤ (vtimer_set_normalized (fixed_env 0 1) (initialised (fixed_env 0 1))
        (timer_at 1 ⟨0, 0⟩)).nanoseconds ∧
    ((vtimer_set_normalized (fixed_env 0 1) (initialised (fixed_env 0 1))
        (timer_at 1 ⟨0, 0⟩)).nanoseconds : Int) - 10
      ≤ ((vtimer_set_deadline (fixed_env 0 1) (initialised (fixed_env 0 1))
        (timer_at 1 ⟨0, 0⟩)).nanoseconds : Int) ∧
    vtimer_set (fixed_env 0 1) (initialised (fixed_env 0 1)) (timer_at 1 ⟨0, 0⟩)
      = some (vtimer_set_state (fixed_env 0 1) (initialised (fixed_env 0 1))
          (timer_at 1 ⟨0, 0⟩), 0) ∧
    (vtimer_set_state (fixed_env 0 1) (initialised (fixed_env 0 1))
        (timer_at 1 ⟨0, 0⟩)).shortterm_queue_root
      = queue_priority_add (initialised (fixed_env 0 1)).shortterm_queue_root
          (shortterm_entry (timer_at 1 ⟨0, 0⟩) ⟨0, 0⟩) ∧
    (shortterm_entry (timer_at 1 ⟨0, 0⟩) ⟨0, 0⟩).priority = 0 :=
  ⟨(epoch_zero_nudge_keeps_timer (fixed_env 0 1) (initialised (fixed_env 0 1))
      (timer_at 1 ⟨0, 0⟩) (by decide)).1,
   (epoch_zero_nudge_keeps_timer (fixed_env 0 1) (initialised (fixed_env 0 1))
      (timer_at 1 ⟨0, 0⟩) (by decide)).2.1,
   (epoch_zero_nudge_keeps_timer (fixed_env 0 1) (initialised (fixed_env 0 1))
      (timer_at 1 ⟨0, 0⟩) (by decide)).2.2.1,
   (epoch_zero_nudge_keeps_timer (fixed_env 0 1) (initialised (fixed_env 0 1))
      (timer_at 1 ⟨0, 0⟩) (by decide)).2.2.2 (by decide)⟩

/-- Claim C18, as stated, fails. After `vtimer_init`, counter at 0: a timer armed
for (0, 5), near zero in epoch zero, is stored as (0, 5), not earlier; a timer
armed for (0, 2048000000), half an epoch, is stored as (0, 2047999990), not
unchanged; and the deadline 11 is nudged although the smaller non-zero
deadline 5 is not. -/
theorem nudge_not_for_small_values :
    vtimer_set_normalized (fixed_env 0 1) (initialised (fixed_env 0 1)) (timer_at 1 ⟨0, 5⟩)
      = ⟨0, 5⟩ ∧
    vtimer_set_deadline (fixed_env 0 1) (initialised (fixed_env 0 1)) (timer_at 1 ⟨0, 5⟩)
      = ⟨0, 5⟩ ∧
    vtimer_set_normalized (fixed_env 0 1) (initialised (fixed_env 0 1))
      (timer_at 2 ⟨0, 2048000000⟩) = ⟨0, 2048000000⟩ ∧
    vtimer_set_deadline (fixed_env 0 1) (initialised (fixed_env 0 1))
      (timer_at 2 ⟨0, 2048000000⟩) = ⟨0, 2047999990⟩ ∧
    vtimer_set_nudge ⟨0, 11⟩ = ⟨0, 1⟩ ∧ vtimer_set_nudge ⟨0, 5⟩ = ⟨0, 5⟩ ∧
    (vtimer_set_state (fixed_env 0 1)
      (vtimer_set_state (fixed_env 0 1) (initialised (fixed_env 0 1)) (timer_at 1 ⟨0, 5⟩))
      (timer_at 2 ⟨0, 2048000000⟩)).shortterm_queue_root.map
        (fun t => (t.addr, t.absolute))
      = [(1, ⟨0, 5⟩), (2, ⟨0, 2047999990⟩), (0, ⟨0, 4096000000⟩)] := by
  decide

/-- Claim C18, amended: the backward nudge of `vtimer_set` is applied exactly
when the normalised deadline lands in epoch zero with a nanosecond value above
10: such a deadline is stored earlier by exactly 10; deadlines in epoch zero
with a value of at most 10 and deadlines in any non-zero epoch are stored
unchanged. Equivalently, if an epoch-zero deadline with value `n` is nudged
then so is every epoch-zero deadline with a larger value. The stored deadline
is the one the queued timer carries. -/
theorem nudge_exactly_above_ten (env : Env) (s : State) (timer : vtimer_t) :
    (vtimer_set_deadline env s timer ≠ vtimer_set_normalized env s timer ↔
      ((vtimer_set_normalized env s timer).seconds = 0 ∧
        10 < (vtimer_set_normalized env s timer).nanoseconds)) ∧
    ((vtimer_set_normalized env s timer).seconds = 0 →
      10 < (vtimer_set_normalized env s timer).nanoseconds →
      vtimer_set_deadline env s timer
        = ⟨0, (vtimer_set_normalized env s timer).nanoseconds - 10⟩) ∧
    (∀ n m : Nat, vtimer_set_nudge ⟨0, n⟩ ≠ ⟨0, n⟩ → n ≤ m →
      vtimer_set_nudge ⟨0, m⟩ ≠ ⟨0, m⟩) ∧
    vtimer_set env s timer = some (vtimer_set_state env s timer, 0) ∧
    (((vtimer_set_normalized env s timer).seconds = s.seconds ∧
        (vtimer_set_state env s timer).shortterm_queue_root
          = queue_priority_add s.shortterm_queue_root
              (shortterm_entry timer (vtimer_set_deadline env s timer))) ∨
      ((vtimer_set_normalized env s timer).seconds ≠ s.seconds ∧
        (vtimer_set_state env s timer).longterm_queue_root
          = queue_priority_add s.longterm_queue_root
              (longterm_entry timer (vtimer_set_deadline env s timer)))) := by
  refine ⟨vtimer_set_nudge_changes _, vtimer_set_nudge_value _, ?_,
    vtimer_set_queues_deadline env s timer⟩
  intro n m hn hnm
  rw [vtimer_set_nudge_changes] at hn ⊢
  simp only at hn ⊢
  exact ⟨trivial, by omega⟩

/-- A run of the amended claim C18: after `vtimer_init`, counter at 0, the
deadline (0, 2048000000) is stored as (0, 2047999990). -/
theorem nudge_exactly_above_ten_witness :
    vtimer_set_deadline (fixed_env 0 1) (initialised (fixed_env 0 1))
      (timer_at 2 ⟨0, 2048000000⟩)
      = ⟨0, (vtimer_set_normalized (fixed_env 0 1) (initialised (fixed_env 0 1))
          (timer_at 2 ⟨0, 2048000000⟩)).nanoseconds - 10⟩ ∧
    vtimer_set_nudge ⟨0, 2048000000⟩ ≠ ⟨0, 2048000000⟩ :=
  ⟨(nudge_exactly_above_ten (fixed_env 0 1) (initialised (fixed_env 0 1))
      (timer_at 2 ⟨0, 2048000000⟩)).2.1 (by decide) (by decide),
   (nudge_exactly_above_ten (fixed_env 0 1) (initialised (fixed_env 0 1))
      (timer_at 2 ⟨0, 2048000000⟩)).2.2.1 11 2048000000 (by decide) (by decide)⟩

/-- Claim C15, as stated, fails. After `vtimer_init` the dispatcher fires the
epoch-wrap timer while the counter reads 4096000003 (the trace shows the
reading `vtimer_tick` got); when the handler has returned the tick anchor is
4096000000, the deadline the epoch-wrap timer had, not the reading. -/
theorem tick_anchor_is_not_the_reading :
    (vtimer_tick (fixed_env 4096000003 1)
      (firing_state (initialised (fixed_env 0 1))
        (initialised (fixed_env 0 1)).longterm_tick_timer [])).map
      (fun s' => (s'.longterm_tick_start,
        s'.trace.drop (initialised (fixed_env 0 1)).trace.length))
      = some (4096000000,
          [Event.fire 0, Event.hwtimer_now 4096000003,
           Event.hwtimer_set_absolute 3698065408 1]) ∧
    (vtimer_callback (fixed_env 4096000003 1) (initialised (fixed_env 0 1))).map
      (fun s' => s'.longterm_tick_start) = some 4096000000 := by
  decide

/-- Claim C15, amended: when `vtimer_tick` returns, the tick anchor
`longterm_tick_start` equals the nanosecond deadline the epoch-wrap timer
`longterm_tick_timer` held when the handler was entered, for every state and
whatever the hardware counter reads. -/
theorem tick_anchor_is_previous_deadline (env : Env) (s : State) :
    ∃ s', vtimer_tick env s = some s' ∧
      s'.longterm_tick_start = s.longterm_tick_timer.absolute.nanoseconds := by
  obtain ⟨s', h1, _, h3, _⟩ := vtimer_tick_spec env s
  exact ⟨s', h1, h3⟩

/-- Claim C14 on the code: after `vtimer_init` (counter at 0) the epoch-wrap
timer is queued with deadline 4096000000 and anchor 0, so deadline plus anchor
is the anchor plus `NANOSECONDS_PER_TICK`. After the first epoch wrap (the
dispatcher fires it with the counter at 4096000000) the anchor is 4096000000
and the epoch-wrap timer is queued with deadline 3897032704: deadline plus
anchor is 3698065408 modulo `2^32`, which is what the hardware is armed for,
while the anchor plus `NANOSECONDS_PER_TICK` is 3897032704. -/
theorem second_epoch_wrap_armed_early :
    (initialised (fixed_env 0 1)).shortterm_queue_root
      = [(initialised (fixed_env 0 1)).longterm_tick_timer] ∧
    add32 (initialised (fixed_env 0 1)).longterm_tick_timer.priority
        (initialised (fixed_env 0 1)).longterm_tick_start
      = add32 (initialised (fixed_env 0 1)).longterm_tick_start NANOSECONDS_PER_TICK ∧
    (vtimer_callback (fixed_env 4096000000 1) (initialised (fixed_env 0 1))).map
      (fun s' => decide (s'.shortterm_queue_root = [s'.longterm_tick_timer])) = some true ∧
    (vtimer_callback (fixed_env 4096000000 1) (initialised (fixed_env 0 1))).map
      (fun s' => (s'.longterm_tick_timer.priority, s'.longterm_tick_start)) =
      some (3897032704, 4096000000) ∧
    (vtimer_callback (fixed_env 4096000000 1) (initialised (fixed_env 0 1))).map
      (fun s' => (add32 s'.longterm_tick_timer.priority s'.longterm_tick_start,
        add32 s'.longterm_tick_start NANOSECONDS_PER_TICK)) =
      some (3698065408, 3897032704) ∧
    (vtimer_callback (fixed_env 4096000000 1) (initialised (fixed_env 0 1))).map
      (fun s' => s'.trace.drop (initialised (fixed_env 0 1)).trace.length) =
      some [Event.fire 0, Event.hwtimer_now 4096000000,
        Event.hwtimer_set_absolute 3698065408 1] := by
  decide

/-! ## Structure of the operations -/

theorem vtimer_callback_steps (env : Env) (s s' : State) (h : vtimer_callback env s = some s') :
    ∃ t rest s1 r, s.shortterm_queue_root = t :: rest ∧
      run_action env (firing_state s t rest) t = some s1 ∧
      update_shortterm env { s1 with in_callback := false } = some (s', r) := by
  cases hq : s.shortterm_queue_root with
  | nil => simp [vtimer_callback, hq, queue_remove_head] at h
  | cons t rest =>
    have hfs : firing_state s t rest =
        State.log { s with in_callback := true, hwtimer_id := -1, shortterm_queue_root := rest }
          (Event.fire t.addr) := rfl
    simp only [vtimer_callback, hq, queue_remove_head] at h
    rw [← hfs] at h
    split at h
    · exact absurd h (by simp)
    · rename_i s1 ha
      split at h
      · exact absurd h (by simp)
      · rename_i s2 r hu
        simp only [Option.some.injEq] at h
        subst h
        exact ⟨t, rest, s1, r, rfl, ha, hu⟩

theorem vtimer_callback_of_steps (env : Env) (s s1 s' : State) (t : vtimer_t)
    (rest : List vtimer_t) (r : Int) (hq : s.shortterm_queue_root = t :: rest)
    (ha : run_action env (firing_state s t rest) t = some s1)
    (hu : update_shortterm env { s1 with in_callback := false } = some (s', r)) :
    vtimer_callback env s = some s' := by
  have hfs : firing_state s t rest =
      State.log { s with in_callback := true, hwtimer_id := -1, shortterm_queue_root := rest }
        (Event.fire t.addr) := rfl
  simp only [vtimer_callback, hq, queue_remove_head]
  rw [← hfs, ha]
  simp only [hu]

theorem vtimer_set_state_frame (env : Env) (s : State) (timer : vtimer_t) :
    (vtimer_set_state env s timer).longterm_tick_timer = s.longterm_tick_timer ∧
    (vtimer_set_state env s timer).seconds = s.seconds ∧
    (vtimer_set_state env s timer).in_callback = s.in_callback ∧
    (vtimer_set_state env s timer).longterm_tick_start = s.longterm_tick_start := by
  by_cases h : (vtimer_set_normalized env s timer).seconds = s.seconds
  · obtain ⟨s', h1, _, _, h4, h5, h6, h7, _⟩ := vtimer_set_shortterm_eq env s timer h
    simp [vtimer_set_state, h1, h4, h5, h6, h7]
  · simp [vtimer_set_state, vtimer_set_longterm_eq env s timer h]

theorem run_api_calls_frame (env : Env) (calls : List api_call) (s s' : State)
    (h : run_api_calls env calls s = some s') :
    s'.longterm_tick_timer = s.longterm_tick_timer ∧ s'.seconds = s.seconds ∧
    s'.in_callback = s.in_callback := by
  induction calls generalizing s with
  | nil =>
    simp only [run_api_calls, Option.some.injEq] at h
    subst h
    exact ⟨rfl, rfl, rfl⟩
  | cons c cs ih =>
    simp only [run_api_calls, run_api_call_eq] at h
    obtain ⟨k1, k2, k3⟩ := ih _ h
    obtain ⟨f1, f2, f3, _⟩ := vtimer_set_state_frame env s c.timer
    exact ⟨by rw [k1, f1], by rw [k2, f2], by rw [k3, f3]⟩

theorem vtimer_init_steps (env : Env) :
    ∃ s1, update_shortterm env init_prepared = some (s1, 0) ∧
      vtimer_init env boot = some (s1.log Event.restoreIRQ, 0) ∧
      initialised env = s1.log Event.restoreIRQ := by
  obtain ⟨s1, h1⟩ := update_shortterm_total env init_prepared (by simp [init_prepared])
  have h2 : vtimer_init env boot = some (s1.log Event.restoreIRQ, 0) := by
    have e : init_prepared =
        (set_shortterm
          { (boot.log Event.disableIRQ) with
            seconds := 0,
            longterm_tick_timer := first_tick_timer }
          { (boot.log Event.disableIRQ).longterm_tick_timer with
            action := action_t.vtimer_tick, arg := 0,
            absolute := { seconds := 0, nanoseconds := NANOSECONDS_PER_TICK } }).1 := by
      decide
    simp only [vtimer_init]
    have e2 : ({ (boot.log Event.disableIRQ).longterm_tick_timer with
        action := action_t.vtimer_tick, arg := 0,
        absolute := { seconds := 0, nanoseconds := NANOSECONDS_PER_TICK },
        priority := NANOSECONDS_PER_TICK } : vtimer_t) = first_tick_timer := by decide
    simp only [e2]
    rw [← e, h1]
  exact ⟨s1, h1, h2, by simp [initialised, h2]⟩

theorem initialised_tick_queued (env : Env) :
    TickQueued (initialised env) ∧ (initialised env).longterm_queue_root = [] ∧
    (initialised env).in_callback = false ∧ (initialised env).seconds = 0 := by
  obtain ⟨s1, h1, _, h3⟩ := vtimer_init_steps env
  have hf := update_shortterm_frame env _ s1 0 h1
  rw [h3]
  simp only [State.log, TickQueued]
  rw [hf.2.1, hf.2.2.1, hf.2.2.2.2.2.2, hf.2.2.2.2.1, hf.2.2.2.1]
  simp [init_prepared, first_tick_timer, boot]

/-! ## The arming invariant -/

theorem update_shortterm_eq_none (env : Env) (s : State) :
    update_shortterm env s = none ↔ s.shortterm_queue_root = [] := by
  constructor
  · intro h
    by_contra hne
    obtain ⟨s', hs⟩ := update_shortterm_total env s hne
    rw [hs] at h
    exact absurd h (by simp)
  · intro h
    simp [update_shortterm, h]

theorem next_tick_timer_action (s : State) :
    (next_tick_timer s).action = s.longterm_tick_timer.action := by
  cases s with
  | mk a b c d e f g h i =>
    cases c with
    | mk c1 c2 c3 c4 c5 => exact Eq.refl c4

theorem firing_state_tick_timer (s : State) (t : vtimer_t) (rest : List vtimer_t) :
    (firing_state s t rest).longterm_tick_timer = s.longterm_tick_timer := rfl

theorem tickQueued_vtimer_set (env : Env) (s : State) (timer : vtimer_t)
    (h : TickQueued s) : TickQueued (vtimer_set_state env s timer) := by
  obtain ⟨f1, _⟩ := vtimer_set_state_frame env s timer
  exact ⟨by rw [f1]; exact List.Sublist.subset (vtimer_set_state_sublist env s timer) h.1,
    by rw [f1]; exact h.2⟩

theorem run_action_tickQueued (env : Env) (s : State) (t : vtimer_t)
    (rest : List vtimer_t) (hq : s.shortterm_queue_root = t :: rest) (h : TickQueued s) :
    ∃ s1, run_action env (firing_state s t rest) t = some s1 ∧ TickQueued s1 := by
  have hrest : t.action ≠ action_t.vtimer_tick → s.longterm_tick_timer ∈ rest := by
    intro hne
    have hm := h.1
    rw [hq] at hm
    rcases List.mem_cons.1 hm with hm | hm
    · rw [← hm] at hne; exact absurd h.2 hne
    · exact hm
  unfold run_action
  cases ha : t.action with
  | vtimer_tick =>
    simp only
    obtain ⟨s1, h1, _, _, h4, _, _, h7⟩ := vtimer_tick_spec env (firing_state s t rest)
    refine ⟨s1, h1, ?_, ?_⟩
    · rw [h4, h7]
      exact List.Sublist.subset (promote_all_sublist _ _) (mem_queue_priority_add_self _ _)
    · rw [h4, next_tick_timer_action, firing_state_tick_timer]
      exact h.2
  | thread_wakeup =>
    simp only
    exact ⟨_, rfl, hrest (by rw [ha]; simp), h.2⟩
  | user f =>
    simp only
    obtain ⟨s1, inner, h1, _, _, h4, _⟩ :=
      run_api_calls_in_callback_spec env
        (env.user_action f t.arg (firing_state s t rest).trace) (firing_state s t rest) rfl
    obtain ⟨f1, _⟩ := run_api_calls_frame env _ _ s1 h1
    refine ⟨s1, h1, ?_, ?_⟩
    · rw [f1]
      exact List.Sublist.subset h4 (hrest (by rw [ha]; simp))
    · rw [f1]; exact h.2

theorem vtimer_callback_tickQueued (env : Env) (s : State) (h : TickQueued s) :
    ∃ s', vtimer_callback env s = some s' ∧ TickQueued s' := by
  cases hq : s.shortterm_queue_root with
  | nil => have hm := h.1; rw [hq] at hm; exact absurd hm (by simp)
  | cons t rest =>
    obtain ⟨s1, h1, h2⟩ := run_action_tickQueued env s t rest hq h
    have hne : ({ s1 with in_callback := false } : State).shortterm_queue_root ≠ [] := by
      intro e
      have hm := h2.1
      simp only at e
      rw [e] at hm
      exact absurd hm (by simp)
    obtain ⟨s', hs'⟩ := update_shortterm_total env { s1 with in_callback := false } hne
    have hf := update_shortterm_frame env _ s' 0 hs'
    refine ⟨s', vtimer_callback_of_steps env s s1 s' t rest 0 hq h1 hs', ?_, ?_⟩
    · rw [hf.2.2.2.2.2.2, hf.2.1]; exact h2.1
    · rw [hf.2.2.2.2.2.2]; exact h2.2

theorem run_ops_tickQueued (env : Env) (ops : List Op) (s : State) (h : TickQueued s) :
    ∃ s', run_ops env ops s = some s' ∧ TickQueued s' := by
  induction ops generalizing s with
  | nil => exact ⟨s, rfl, h⟩
  | cons op ops ih =>
    cases op with
    | set timer =>
      obtain ⟨s', h1, h2⟩ := ih _ (tickQueued_vtimer_set env s timer h)
      exact ⟨s', by simp only [run_ops, run_op_set_eq, h1], h2⟩
    | fire =>
      obtain ⟨s1, k1, k2⟩ := vtimer_callback_tickQueued env s h
      obtain ⟨s', h1, h2⟩ := ih _ k2
      exact ⟨s', by simp only [run_ops, run_op, k1, h1], h2⟩

theorem dispatcher_steps_tickQueued (env : Env) (s : State) (h : TickQueued s) :
    ∃ t rest s1 s', s.shortterm_queue_root = t :: rest ∧
      run_action env (firing_state s t rest) t = some s1 ∧ TickQueued s1 ∧
      update_shortterm env { s1 with in_callback := false } = some (s', 0) ∧
      vtimer_callback env s = some s' := by
  cases hq : s.shortterm_queue_root with
  | nil => have hm := h.1; rw [hq] at hm; exact absurd hm (by simp)
  | cons t rest =>
    obtain ⟨s1, h1, h2⟩ := run_action_tickQueued env s t rest hq h
    have hne : ({ s1 with in_callback := false } : State).shortterm_queue_root ≠ [] := by
      intro e
      have hm := h2.1
      simp only at e
      rw [e] at hm
      exact absurd hm (by simp)
    obtain ⟨s', hs'⟩ := update_shortterm_total env { s1 with in_callback := false } hne
    exact ⟨t, rest, s1, s', rfl, h1, h2, hs', vtimer_callback_of_steps env s s1 s' t rest 0 hq h1 hs'⟩

/-- Claim C12 (arming invariant). From the boot state `vtimer_init` returns, and
every sequence of arming calls and dispatcher runs after it returns: no call
takes the NULL-head branch, the only way for an operation not to return. In the
state reached the internal epoch-wrap timer is linked in the short-term queue,
so the dispatcher pops a head; the action of the popped timer returns with the
epoch-wrap timer again linked short-term, so the `update_shortterm` that closes
the dispatcher run reads a head and returns; a further arming call returns too.
`update_shortterm` fails exactly on an empty short-term queue. -/
theorem arming_invariant (env : Env) (ops : List Op) :
    (∃ s1, init_prepared.longterm_tick_timer ∈ init_prepared.shortterm_queue_root ∧
      update_shortterm env init_prepared = some (s1, 0) ∧
      vtimer_init env boot = some (s1.log Event.restoreIRQ, 0) ∧
      initialised env = s1.log Event.restoreIRQ) ∧
    (∀ s, update_shortterm env s = none ↔ s.shortterm_queue_root = []) ∧
    ∃ s, run_ops env ops (initialised env) = some s ∧
      s.longterm_tick_timer ∈ s.shortterm_queue_root ∧
      s.longterm_tick_timer.action = action_t.vtimer_tick ∧
      (∀ timer, ∃ s', vtimer_set env s timer = some (s', 0)) ∧
      ∃ t rest s1 s', s.shortterm_queue_root = t :: rest ∧
        run_action env (firing_state s t rest) t = some s1 ∧
        s1.longterm_tick_timer ∈ s1.shortterm_queue_root ∧
        update_shortterm env { s1 with in_callback := false } = some (s', 0) ∧
        vtimer_callback env s = some s' := by
  refine ⟨?_, update_shortterm_eq_none env, ?_⟩
  · obtain ⟨s1, h1, h2, h3⟩ := vtimer_init_steps env
    exact ⟨s1, by simp [init_prepared], h1, h2, h3⟩
  · obtain ⟨s, h1, h2⟩ := run_ops_tickQueued env ops _ (initialised_tick_queued env).1
    obtain ⟨t, rest, s1, s', k1, k2, k3, k4, k5⟩ := dispatcher_steps_tickQueued env s h2
    exact ⟨s, h1, h2.1, h2.2, vtimer_set_total env s, t, rest, s1, s', k1, k2, k3.1, k4, k5⟩

/-! ## Promotion at the epoch wrap -/

theorem mem_queue_priority_add (q : List vtimer_t) (x y : vtimer_t)
    (h : y ∈ queue_priority_add q x) : y = x ∨ y ∈ q := by
  obtain ⟨l, r, h1, h2, _⟩ := queue_priority_add_split q x
  rw [h2] at h
  rw [h1]
  simp only [List.mem_append, List.mem_cons] at h ⊢
  tauto

theorem pairwise_queue_priority_add (q : List vtimer_t) (x : vtimer_t)
    (h : List.Pairwise (fun a b => a.priority ≤ b.priority) q) :
    List.Pairwise (fun a b => a.priority ≤ b.priority) (queue_priority_add q x) := by
  induction q with
  | nil => simp [queue_priority_add]
  | cons y ys ih =>
    rw [List.pairwise_cons] at h
    by_cases hy : y.priority > x.priority
    · simp only [queue_priority_add, hy, if_true]
      rw [List.pairwise_cons]
      refine ⟨?_, List.pairwise_cons.2 h⟩
      intro z hz
      rcases List.mem_cons.1 hz with hz | hz
      · subst hz; omega
      · have := h.1 z hz; omega
    · simp only [queue_priority_add, hy, if_false]
      rw [List.pairwise_cons]
      refine ⟨?_, ih h.2⟩
      intro z hz
      rcases mem_queue_priority_add ys x z hz with hz | hz
      · subst hz; omega
      · exact h.1 z hz

theorem mem_promote_all (q xs : List vtimer_t) (t : vtimer_t) (h : t ∈ xs) :
    shortterm_entry t t.absolute ∈ promote_all q xs := by
  induction xs generalizing q with
  | nil => exact absurd h (by simp)
  | cons x xs ih =>
    rw [promote_all_cons]
    rcases List.mem_cons.1 h with h | h
    · subst h
      exact List.Sublist.subset (promote_all_sublist _ _) (mem_queue_priority_add_self _ _)
    · exact ih _ h

theorem longtermSorted_tail (y : vtimer_t) (ys : List vtimer_t) (h : LongtermSorted (y :: ys)) :
    LongtermSorted ys :=
  ⟨(List.pairwise_cons.1 h.1).2, fun z hz => h.2 z (List.mem_cons_of_mem _ hz)⟩

theorem dropWhile_no_match (q : List vtimer_t) (e : Nat) (hs : LongtermSorted q)
    (hfresh : ∀ t ∈ q, e ≤ t.absolute.seconds) :
    ∀ t ∈ q.dropWhile (fun t => decide (t.absolute.seconds = e)), t.absolute.seconds ≠ e := by
  induction q with
  | nil => simp
  | cons y ys ih =>
    intro t ht
    by_cases hy : y.absolute.seconds = e
    · rw [List.dropWhile_cons_of_pos (by simpa using hy)] at ht
      exact ih (longtermSorted_tail y ys hs) (fun z hz => hfresh z (List.mem_cons_of_mem _ hz))
        t ht
    · rw [List.dropWhile_cons_of_neg (by simpa using hy)] at ht
      have hy2 := hfresh y (List.mem_cons_self _ _)
      rcases List.mem_cons.1 ht with ht | ht
      · subst ht; exact hy
      · have h1 := (List.pairwise_cons.1 hs.1).1 t ht
        have h2 := hs.2 t (List.mem_cons_of_mem _ ht)
        have h3 := hs.2 y (List.mem_cons_self _ _)
        omega

theorem longtermSorted_vtimer_set (env : Env) (s : State) (timer : vtimer_t)
    (h : LongtermSorted s.longterm_queue_root) :
    LongtermSorted (vtimer_set_state env s timer).longterm_queue_root := by
  by_cases hs : (vtimer_set_normalized env s timer).seconds = s.seconds
  · rw [(vtimer_set_state_shortterm env s timer hs).2.1]; exact h
  · rw [(vtimer_set_state_longterm env s timer hs).1]
    refine ⟨pairwise_queue_priority_add _ _ h.1, ?_⟩
    intro t ht
    rcases mem_queue_priority_add _ _ _ ht with ht | ht
    · subst ht; rfl
    · exact h.2 t ht

theorem longtermSorted_run_api_calls (env : Env) (calls : List api_call) (s s' : State)
    (h : LongtermSorted s.longterm_queue_root) (hr : run_api_calls env calls s = some s') :
    LongtermSorted s'.longterm_queue_root := by
  induction calls generalizing s with
  | nil =>
    simp only [run_api_calls, Option.some.injEq] at hr
    subst hr
    exact h
  | cons c cs ih =>
    simp only [run_api_calls, run_api_call_eq] at hr
    exact ih _ (longtermSorted_vtimer_set env s c.timer h) hr

theorem longtermSorted_run_action (env : Env) (s s' : State) (t : vtimer_t)
    (h : LongtermSorted s.longterm_queue_root) (hr : run_action env s t = some s') :
    LongtermSorted s'.longterm_queue_root := by
  unfold run_action at hr
  cases ha : t.action with
  | vtimer_tick =>
    simp only [ha] at hr
    obtain ⟨s1, h1, _, _, _, _, h6, _⟩ := vtimer_tick_spec env s
    rw [h1] at hr
    cases hr
    rw [h6]
    exact ⟨List.Pairwise.sublist (List.dropWhile_sublist _) h.1,
      fun z hz => h.2 z (List.Sublist.subset (List.dropWhile_sublist _) hz)⟩
  | thread_wakeup =>
    simp only [ha, Option.some.injEq] at hr
    subst hr
    exact h
  | user f =>
    simp only [ha] at hr
    exact longtermSorted_run_api_calls env _ s s' h hr

theorem longtermSorted_vtimer_callback (env : Env) (s s' : State)
    (h : LongtermSorted s.longterm_queue_root) (hr : vtimer_callback env s = some s') :
    LongtermSorted s'.longterm_queue_root := by
  obtain ⟨t, rest, s1, r, _, ha, hu⟩ := vtimer_callback_steps env s s' hr
  have h1 := longtermSorted_run_action env (firing_state s t rest) s1 t h ha
  rw [(update_shortterm_frame env _ s' r hu).2.2.1]
  exact h1

theorem longtermSorted_run_ops (env : Env) (ops : List Op) (s s' : State)
    (h : LongtermSorted s.longterm_queue_root) (hr : run_ops env ops s = some s') :
    LongtermSorted s'.longterm_queue_root := by
  induction ops generalizing s with
  | nil =>
    simp only [run_ops, Option.some.injEq] at hr
    subst hr
    exact h
  | cons op ops ih =>
    cases op with
    | set timer =>
      simp only [run_ops, run_op_set_eq] at hr
      exact ih _ (longtermSorted_vtimer_set env s timer h) hr
    | fire =>
      simp only [run_ops, run_op] at hr
      split at hr
      · exact absurd hr (by simp)
      · rename_i s1 hc
        exact ih s1 (longtermSorted_vtimer_callback env s s1 h hc) hr

theorem reachable_longtermSorted (env : Env) (s : State) (h : Reachable env s) :
    LongtermSorted s.longterm_queue_root := by
  obtain ⟨ops, hr⟩ := h
  refine longtermSorted_run_ops env ops _ s ?_ hr
  rw [(initialised_tick_queued env).2.1]
  exact ⟨List.Pairwise.nil, by simp⟩

/-- Counterexample to claim C11 as stated. After the first epoch wrap (epoch
counter 4096) a timer is armed with an interval of 4294963200 seconds: the
32-bit sum of the seconds wraps, its deadline epoch is 0, and it is linked at
the head of the long-term queue. A second timer armed with an interval of 4096
seconds gets the deadline epoch 8192 and is linked behind it. At the next epoch
wrap the counter reaches 8192, the promotion loop stops at the head (epoch 0),
and the second timer, whose deadline epoch equals the new counter, is still in
the long-term queue; the short-term queue holds the epoch-wrap timer only. -/
theorem stale_head_blocks_promotion :
    (run_ops (fixed_env 0 1)
        [Op.fire, Op.set (timer_at 1 ⟨4294963200, 0⟩), Op.set (timer_at 2 ⟨4096, 0⟩)]
        (initialised (fixed_env 0 1))).map
      (fun s => (s.seconds, s.longterm_queue_root.map (fun t => (t.addr, t.absolute.seconds)),
        s.shortterm_queue_root.map (fun t => t.action)))
      = some (4096, [(1, 0), (2, 8192)], [action_t.vtimer_tick]) ∧
    (run_ops (fixed_env 0 1)
        [Op.fire, Op.set (timer_at 1 ⟨4294963200, 0⟩), Op.set (timer_at 2 ⟨4096, 0⟩), Op.fire]
        (initialised (fixed_env 0 1))).map
      (fun s => (s.seconds, s.longterm_queue_root.map (fun t => (t.addr, t.absolute.seconds)),
        s.shortterm_queue_root.map (fun t => t.addr)))
      = some (8192, [(1, 0), (2, 8192)], [0]) := by
  decide

/-- Claim C11 (amended). In every state reached from `vtimer_init` by arming
calls and dispatcher runs in which no long-term timer has a deadline epoch
below the epoch counter about to be reached, the epoch wrap (the dispatcher
firing a timer whose action is `vtimer_tick`) promotes every long-term timer
whose deadline epoch equals the new counter: `vtimer_tick` returns, no timer
with `absolute.seconds` equal to the new counter remains in the long-term
queue, every such timer is in the short-term queue, and the matching timers
are a prefix of the old long-term queue. The dispatcher run returns with the
same queues. -/
theorem epoch_wrap_promotes_matching (env : Env) (ops : List Op) (s : State) (t : vtimer_t)
    (rest : List vtimer_t)
    (hr : run_ops env ops (initialised env) = some s)
    (hq : s.shortterm_queue_root = t :: rest) (ha : t.action = action_t.vtimer_tick)
    (hfresh : ∀ x ∈ s.longterm_queue_root,
      add32 s.seconds SECONDS_PER_TICK ≤ x.absolute.seconds) :
    ∃ s1 s', run_action env (firing_state s t rest) t = some s1 ∧
      vtimer_tick env (firing_state s t rest) = some s1 ∧
      s1.seconds = add32 s.seconds SECONDS_PER_TICK ∧
      (∀ x ∈ s1.longterm_queue_root, x.absolute.seconds ≠ s1.seconds) ∧
      (∀ x ∈ s.longterm_queue_root, x.absolute.seconds = s1.seconds →
        shortterm_entry x x.absolute ∈ s1.shortterm_queue_root) ∧
      s.longterm_queue_root = promoted s ++ s1.longterm_queue_root ∧
      (∀ x ∈ promoted s, x.absolute.seconds = s1.seconds) ∧
      vtimer_callback env s = some s' ∧
      s'.longterm_queue_root = s1.longterm_queue_root ∧
      s'.shortterm_queue_root = s1.shortterm_queue_root ∧ s'.seconds = s1.seconds := by
  obtain ⟨s1, h1, h2, _, _, _, h6, h7⟩ := vtimer_tick_spec env (firing_state s t rest)
  have e1 : (firing_state s t rest).seconds = s.seconds := rfl
  have e2 : (firing_state s t rest).longterm_queue_root = s.longterm_queue_root := rfl
  rw [e1] at h2
  rw [e1, e2] at h6 h7
  have hsort := reachable_longtermSorted env s ⟨ops, hr⟩
  have hrun : run_action env (firing_state s t rest) t = some s1 := by
    simp only [run_action, ha]
    exact h1
  have hne : ({ s1 with in_callback := false } : State).shortterm_queue_root ≠ [] := by
    simp only
    rw [h7]
    exact promote_all_ne_nil _ _ (queue_priority_add_ne_nil _ _)
  obtain ⟨s', hs'⟩ := update_shortterm_total env { s1 with in_callback := false } hne
  have hf := update_shortterm_frame env _ s' 0 hs'
  have hno := dropWhile_no_match s.longterm_queue_root (add32 s.seconds SECONDS_PER_TICK)
    hsort hfresh
  refine ⟨s1, s', hrun, h1, h2, ?_, ?_, ?_, ?_,
    vtimer_callback_of_steps env s s1 s' t rest 0 hq hrun hs', hf.2.2.1, hf.2.1, hf.2.2.2.1⟩
  · intro x hx
    rw [h6] at hx
    rw [h2]
    exact hno x hx
  · intro x hx hm
    rw [h7]
    apply mem_promote_all
    rw [← List.takeWhile_append_dropWhile
      (fun t => decide (t.absolute.seconds = add32 s.seconds SECONDS_PER_TICK))
      s.longterm_queue_root] at hx
    rcases List.mem_append.1 hx with hx | hx
    · exact hx
    · rw [h2] at hm
      exact absurd hm (hno x hx)
  · rw [h6]
    exact (List.takeWhile_append_dropWhile _ _).symm
  · intro x hx
    rw [h2]
    have := List.mem_takeWhile_imp hx
    simpa using this

/-- A run of claim C11 (amended): a timer armed for 4096 seconds right after
`vtimer_init` waits in the long-term queue with deadline epoch 4096; the
epoch-wrap timer is the head of the short-term queue. -/
theorem epoch_wrap_promotes_matching_witness :
    ∃ s1 s',
      run_action (fixed_env 0 1)
        (firing_state
          (run_ops_state (fixed_env 0 1) [Op.set (timer_at 1 ⟨4096, 0⟩)]
            (initialised (fixed_env 0 1)))
          first_tick_timer []) first_tick_timer = some s1 ∧
      vtimer_tick (fixed_env 0 1)
        (firing_state
          (run_ops_state (fixed_env 0 1) [Op.set (timer_at 1 ⟨4096, 0⟩)]
            (initialised (fixed_env 0 1)))
          first_tick_timer []) = some s1 ∧
      s1.seconds = add32
        (run_ops_state (fixed_env 0 1) [Op.set (timer_at 1 ⟨4096, 0⟩)]
          (initialised (fixed_env 0 1))).seconds SECONDS_PER_TICK ∧
      (∀ x ∈ s1.longterm_queue_root, x.absolute.seconds ≠ s1.seconds) ∧
      (∀ x ∈ (run_ops_state (fixed_env 0 1) [Op.set (timer_at 1 ⟨4096, 0⟩)]
          (initialised (fixed_env 0 1))).longterm_queue_root,
        x.absolute.seconds = s1.seconds →
        shortterm_entry x x.absolute ∈ s1.shortterm_queue_root) ∧
      (run_ops_state (fixed_env 0 1) [Op.set (timer_at 1 ⟨4096, 0⟩)]
          (initialised (fixed_env 0 1))).longterm_queue_root
        = promoted (run_ops_state (fixed_env 0 1) [Op.set (timer_at 1 ⟨4096, 0⟩)]
            (initialised (fixed_env 0 1))) ++ s1.longterm_queue_root ∧
      (∀ x ∈ promoted (run_ops_state (fixed_env 0 1) [Op.set (timer_at 1 ⟨4096, 0⟩)]
          (initialised (fixed_env 0 1))), x.absolute.seconds = s1.seconds) ∧
      vtimer_callback (fixed_env 0 1)
        (run_ops_state (fixed_env 0 1) [Op.set (timer_at 1 ⟨4096, 0⟩)]
          (initialised (fixed_env 0 1))) = some s' ∧
      s'.longterm_queue_root = s1.longterm_queue_root ∧
      s'.shortterm_queue_root = s1.shortterm_queue_root ∧ s'.seconds = s1.seconds :=
  epoch_wrap_promotes_matching (fixed_env 0 1) [Op.set (timer_at 1 ⟨4096, 0⟩)]
    (run_ops_state (fixed_env 0 1) [Op.set (timer_at 1 ⟨4096, 0⟩)] (initialised (fixed_env 0 1)))
    first_tick_timer [] (by decide) (by decide) rfl (by decide)

/-! ## One outstanding hardware arming -/

theorem outstanding_snoc (tr : List Event) (e : Event) :
    outstanding (tr ++ [e]) = outstanding tr + e.arming_delta := by
  simp [outstanding]

theorem balanced_nil : Balanced [] (-1) := by
  refine ⟨?_, by simp [outstanding]⟩
  intro p hp
  rw [List.prefix_nil] at hp
  subst hp
  simp [outstanding]

theorem balanced_le_one (tr : List Event) (id : Int) (h : Balanced tr id) :
    outstanding tr ≤ 1 := by
  have := h.2
  split_ifs at this <;> omega

theorem balanced_snoc (tr : List Event) (e : Event) (id id' : Int) (h : Balanced tr id)
    (hb : outstanding tr + e.arming_delta ≤ (if id' = -1 then 0 else 1)) :
    Balanced (tr ++ [e]) id' := by
  refine ⟨?_, by rw [outstanding_snoc]; exact hb⟩
  intro p hp
  rcases List.prefix_concat_iff.1 hp with hp | hp
  · subst hp
    rw [outstanding_snoc]
    split_ifs at hb <;> omega
  · exact h.1 p hp

theorem balanced_snoc_same (tr : List Event) (e : Event) (id : Int) (h : Balanced tr id)
    (he : e.arming_delta ≤ 0) : Balanced (tr ++ [e]) id := by
  apply balanced_snoc tr e id id h
  have := h.2
  omega

theorem balanced_rearm (tr pre : List Event) (id id' : Int) (now next : Nat)
    (h : Balanced tr id)
    (hp : pre = [] ∧ id = -1 ∨ pre = [Event.hwtimer_remove id] ∧ id ≠ -1) :
    Balanced (tr ++ pre ++ [Event.hwtimer_now now, Event.hwtimer_set_absolute next id']) id' := by
  have h0 : Balanced (tr ++ pre) (-1) := by
    rcases hp with ⟨hp, hid⟩ | ⟨hp, _⟩
    · subst hp
      rw [hid] at h
      simpa using h
    · subst hp
      apply balanced_snoc tr _ id (-1) h
      have := balanced_le_one tr id h
      simp only [Event.arming_delta, if_true]
      omega
  have h1 : Balanced (tr ++ pre ++ [Event.hwtimer_now now]) (-1) :=
    balanced_snoc_same _ _ _ h0 (by simp [Event.arming_delta])
  have h2 : Balanced (tr ++ pre ++ [Event.hwtimer_now now]
      ++ [Event.hwtimer_set_absolute next id']) id' := by
    apply balanced_snoc _ _ (-1) id' h1
    have := h1.2
    simp only [if_true] at this
    simp only [Event.arming_delta]
    split_ifs <;> omega
  simpa using h2

theorem balanced_update_shortterm (env : Env) (s s' : State) (r : Int)
    (h : Balanced s.trace s.hwtimer_id) (hu : update_shortterm env s = some (s', r)) :
    Balanced s'.trace s'.hwtimer_id := by
  cases hq : s.shortterm_queue_root with
  | nil => simp [update_shortterm, hq] at hu
  | cons head rest =>
    rcases update_shortterm_cases env s head rest hq with
      ⟨_, _, h3⟩ | ⟨pre, now, next, id, hp, h3⟩
    · rw [h3] at hu
      simp only [Option.some.injEq, Prod.mk.injEq] at hu
      rw [← hu.1]
      exact h
    · rw [h3] at hu
      simp only [Option.some.injEq, Prod.mk.injEq] at hu
      rw [← hu.1]
      exact balanced_rearm s.trace pre s.hwtimer_id id now next h
        (hp.imp (fun k => k) (fun k => ⟨k.1, k.2.1⟩))

theorem balanced_update_shortterm_of (env : Env) (s s' : State) (r : Int) (tr : List Event)
    (id : Int) (h : Balanced tr id) (e1 : s.trace = tr) (e2 : s.hwtimer_id = id)
    (hu : update_shortterm env s = some (s', r)) : Balanced s'.trace s'.hwtimer_id := by
  subst e1 e2
  exact balanced_update_shortterm env s s' r h hu

theorem balanced_log (s : State) (e : Event) (h : Balanced s.trace s.hwtimer_id)
    (he : e.arming_delta ≤ 0) : Balanced (s.log e).trace (s.log e).hwtimer_id :=
  balanced_snoc_same s.trace e s.hwtimer_id h he

theorem balanced_vtimer_set (env : Env) (s s' : State) (timer : vtimer_t) (r : Int)
    (h : Balanced s.trace s.hwtimer_id) (hs : vtimer_set env s timer = some (s', r)) :
    Balanced s'.trace s'.hwtimer_id := by
  have h1 : Balanced ((vtimer_now env s).2.log Event.disableIRQ).trace
      ((vtimer_now env s).2.log Event.disableIRQ).hwtimer_id :=
    balanced_log _ _ (balanced_log s _ h (by simp [Event.arming_delta]))
      (by simp [Event.arming_delta])
  simp only [vtimer_set, set_longterm, set_shortterm] at hs
  split_ifs at hs with k1 k2 k3
  · simp only [Option.some.injEq, Prod.mk.injEq] at hs
    rw [← hs.1]
    exact balanced_log _ _ h1 (by simp [Event.arming_delta])
  · split at hs
    · exact absurd hs (by simp)
    · rename_i s1 r1 hu
      simp only [Option.some.injEq, Prod.mk.injEq] at hs
      rw [← hs.1]
      refine balanced_log _ _ ?_ (by simp [Event.arming_delta])
      refine balanced_update_shortterm_of env _ s1 r1 _ _ h1 ?_ ?_ hu <;> rfl
  · simp only [Option.some.injEq, Prod.mk.injEq] at hs
    rw [← hs.1]
    exact balanced_log _ _ h1 (by simp [Event.arming_delta])
  · simp only [Option.some.injEq, Prod.mk.injEq] at hs
    rw [← hs.1]
    exact balanced_log _ _ h1 (by simp [Event.arming_delta])

theorem balanced_vtimer_set_state (env : Env) (s : State) (timer : vtimer_t)
    (h : Balanced s.trace s.hwtimer_id) :
    Balanced (vtimer_set_state env s timer).trace (vtimer_set_state env s timer).hwtimer_id :=
  balanced_vtimer_set env s _ timer 0 h (vtimer_set_state_eq env s timer)

theorem balanced_vtimer_tick (env : Env) (s s' : State)
    (h : Balanced s.trace s.hwtimer_id) (ht : vtimer_tick env s = some s') :
    Balanced s'.trace s'.hwtimer_id := by
  simp only [vtimer_tick, set_shortterm, vtimer_tick_loop_eq] at ht
  split at ht
  · exact absurd ht (by simp)
  · rename_i s1 r hu
    simp only [Option.some.injEq] at ht
    subst ht
    refine balanced_update_shortterm_of env _ s1 r _ _ h ?_ ?_ hu <;> rfl

theorem balanced_run_api_calls (env : Env) (calls : List api_call) (s s' : State)
    (h : Balanced s.trace s.hwtimer_id) (hr : run_api_calls env calls s = some s') :
    Balanced s'.trace s'.hwtimer_id := by
  induction calls generalizing s with
  | nil =>
    simp only [run_api_calls, Option.some.injEq] at hr
    subst hr
    exact h
  | cons c cs ih =>
    simp only [run_api_calls, run_api_call_eq] at hr
    exact ih _ (balanced_vtimer_set_state env s c.timer h) hr

theorem balanced_run_action (env : Env) (s s' : State) (t : vtimer_t)
    (h : Balanced s.trace s.hwtimer_id) (hr : run_action env s t = some s') :
    Balanced s'.trace s'.hwtimer_id := by
  unfold run_action at hr
  cases ha : t.action with
  | vtimer_tick =>
    simp only [ha] at hr
    exact balanced_vtimer_tick env s s' h hr
  | thread_wakeup =>
    simp only [ha, Option.some.injEq] at hr
    subst hr
    exact balanced_log s _ h (by simp [Event.arming_delta])
  | user f =>
    simp only [ha] at hr
    exact balanced_run_api_calls env _ s s' h hr

theorem balanced_firing_state (s : State) (t : vtimer_t) (rest : List vtimer_t)
    (h : Balanced s.trace s.hwtimer_id) :
    Balanced (firing_state s t rest).trace (firing_state s t rest).hwtimer_id := by
  have e1 : (firing_state s t rest).trace = s.trace ++ [Event.fire t.addr] := rfl
  have e2 : (firing_state s t rest).hwtimer_id = -1 := rfl
  rw [e1, e2]
  apply balanced_snoc s.trace _ s.hwtimer_id (-1) h
  have := balanced_le_one _ _ h
  simp only [Event.arming_delta, if_true]
  omega

theorem balanced_vtimer_callback (env : Env) (s s' : State)
    (h : Balanced s.trace s.hwtimer_id) (hr : vtimer_callback env s = some s') :
    Balanced s'.trace s'.hwtimer_id := by
  obtain ⟨t, rest, s1, r, _, ha, hu⟩ := vtimer_callback_steps env s s' hr
  have h1 := balanced_run_action env _ s1 t (balanced_firing_state s t rest h) ha
  exact balanced_update_shortterm env { s1 with in_callback := false } s' r h1 hu

theorem balanced_run_ops (env : Env) (ops : List Op) (s s' : State)
    (h : Balanced s.trace s.hwtimer_id) (hr : run_ops env ops s = some s') :
    Balanced s'.trace s'.hwtimer_id := by
  induction ops generalizing s with
  | nil =>
    simp only [run_ops, Option.some.injEq] at hr
    subst hr
    exact h
  | cons op ops ih =>
    cases op with
    | set timer =>
      simp only [run_ops, run_op_set_eq] at hr
      exact ih _ (balanced_vtimer_set_state env s timer h) hr
    | fire =>
      simp only [run_ops, run_op] at hr
      split at hr
      · exact absurd hr (by simp)
      · rename_i s1 hc
        exact ih s1 (balanced_vtimer_callback env s s1 h hc) hr

theorem balanced_initialised (env : Env) :
    Balanced (initialised env).trace (initialised env).hwtimer_id := by
  obtain ⟨s1, h1, _, h3⟩ := vtimer_init_steps env
  rw [h3]
  apply balanced_log
  · apply balanced_update_shortterm env init_prepared s1 0 _ h1
    have e1 : init_prepared.trace = [] ++ [Event.disableIRQ] := rfl
    have e2 : init_prepared.hwtimer_id = -1 := rfl
    rw [e1, e2]
    exact balanced_snoc_same [] _ (-1) balanced_nil (by simp [Event.arming_delta])
  · simp [Event.arming_delta]

/-- Claim C16: at most one hardware arming is outstanding at any time. A call
of `update_shortterm` either does not return (empty short-term queue), or
leaves the state as it is (an arming is recorded), or calls
`hwtimer_set_absolute` once, as the last of the calls `rearm_prelude`, counter
read, arm: the prelude is empty when the recorded id is -1 and is the cancel of
the recorded id otherwise. Every sequence of arming calls and dispatcher runs
after `vtimer_init` returns, and at every point of its trace the number of
armings that returned a valid id minus the number of cancels and firings is at
most one; it is at most zero at the end when the recorded id is -1. -/
theorem at_most_one_arming_outstanding (env : Env) (ops : List Op) :
    (∀ s, update_shortterm env s = none ∨
      (s.hwtimer_id ≠ -1 ∧ update_shortterm env s = some (s, 0)) ∨
      ∃ s' next, update_shortterm env s = some (s', 0) ∧
        s'.trace = s.trace ++ rearm_prelude s ++
          [Event.hwtimer_now (rearm_reading env s),
           Event.hwtimer_set_absolute next s'.hwtimer_id]) ∧
    (∀ s, rearm_prelude s = [] ∧ s.hwtimer_id = -1 ∨
      rearm_prelude s = [Event.hwtimer_remove s.hwtimer_id] ∧ s.hwtimer_id ≠ -1) ∧
    ∃ s, run_ops env ops (initialised env) = some s ∧
      (∀ p, p <+: s.trace → outstanding p ≤ 1) ∧
      outstanding s.trace ≤ (if s.hwtimer_id = -1 then 0 else 1) := by
  refine ⟨?_, ?_, ?_⟩
  · intro s
    cases hq : s.shortterm_queue_root with
    | nil => exact Or.inl ((update_shortterm_eq_none env s).2 hq)
    | cons head rest =>
      right
      by_cases hn : s.hwtimer_id ≠ -1 ∧ s.hwtimer_next_absolute = head.priority
      · exact Or.inl ⟨hn.1, update_shortterm_noop env s head rest hq hn.1 hn.2⟩
      · right
        have harm : s.hwtimer_id = -1 ∨ s.hwtimer_next_absolute ≠ head.priority := by
          by_cases h1 : s.hwtimer_id = -1
          · exact Or.inl h1
          · exact Or.inr (fun h2 => hn ⟨h1, h2⟩)
        exact ⟨_, _, update_shortterm_arming env s head rest hq harm, rfl⟩
  · intro s
    by_cases h1 : s.hwtimer_id = -1
    · exact Or.inl ⟨by simp [rearm_prelude, h1], h1⟩
    · exact Or.inr ⟨by simp [rearm_prelude, h1], h1⟩
  · obtain ⟨s, h1, _⟩ := run_ops_tickQueued env ops _ (initialised_tick_queued env).1
    have hb := balanced_run_ops env ops _ s (balanced_initialised env) h1
    exact ⟨s, h1, hb.1, hb.2⟩

/-! ## Firing order -/

end Vtimer
